import Mathlib

/-!
# mouse-mover: the movement pattern and its scheduler

A shallow embedding of `src/go/main.go`.

* Go's `int` is rendered by `Int`.  Every anchor the program builds is
  `width / 2`, `height / 2` for machine integers `width`, `height`, and the
  pattern adds at most 250 to a coordinate, so no addition of the source can
  wrap (`NewMouseMover_offsets_fit`).
* The methods have a pointer receiver, so each one is a function on a `State`
  that holds the receiver together with what the process has done so far: the
  positions handed to `robotgo.MoveSmooth`, oldest first, and the
  `time.Ticker` it created.  Console output and the sleeps between moves change
  neither and are left out.
* `float64` arithmetic and `math.Cos` / `math.Sin` belong to the Go runtime,
  not to the repository: the drawing functions take them as a parameter
  (`FloatEnv`).  `binary64` instantiates the parameter with IEEE-754
  double precision and the portable `sin` / `cos` of Go's `math` package.
* The events a `select` statement receives come from outside the program and
  are given as a list.
-/

namespace MouseMoverSpec

/-! ## Constants (main.go, lines 14-20) -/

def ShaftLength : Int := 200
def HeadRadius : Int := 50
def BallRadius : Int := 30
def BallOffset : Int := 40

/-- The constant `time.Minute`, in nanoseconds (the unit of `time.Duration`). -/
def Minute : Int := 60 * 1000000000

/-- Two's-complement wrap-around of a 64-bit signed integer. -/
def wrapInt64 (x : Int) : Int := (x + 2 ^ 63) % 2 ^ 64 - 2 ^ 63

/-! ## The floating-point operations the source uses -/

/-- The `float64` operations that appear in `drawHead` and `drawBalls`:
conversion from `int`, the constant `math.Pi`, `*`, `/`, `math.Cos`,
`math.Sin` and the conversion `int(...)`. -/
structure FloatEnv where
  F : Type
  ofInt : Int → F
  pi : F
  mul : F → F → F
  div : F → F → F
  cos : F → F
  sin : F → F
  toInt : F → Int

/-! ## Data model (main.go, lines 22-45) -/

/-- The struct `MouseMover` (lines 23-28). -/
structure MouseMover where
  screenWidth : Int
  screenHeight : Int
  startX : Int
  startY : Int
deriving DecidableEq, Repr

/-- A `time.Ticker` as the program sees it: its period in nanoseconds and
whether `Stop` has been called on it. -/
structure Ticker where
  period : Int
  stopped : Bool
deriving DecidableEq, Repr

/-- The receiver `*MouseMover` and the effects of the process so far. -/
structure State where
  mover : MouseMover
  moves : List (Int × Int)
  ticker : Option Ticker
deriving DecidableEq, Repr

/-- Function `NewMouseMover`, with the result of `robotgo.GetScreenSize()` as
arguments.  Go's `/` on integers truncates toward zero. -/
def NewMouseMover (width height : Int) : MouseMover :=
  { screenWidth := width
    screenHeight := height
    startX := Int.tdiv width 2
    startY := Int.tdiv height 2 }

/-- Method `moveToPosition`: one call of `robotgo.MoveSmooth(x, y, 0.5, 0.5)`. -/
def moveToPosition (s : State) (x y : Int) : State :=
  { s with moves := s.moves ++ [(x, y)] }

/-! ## Loops -/

/-- The loop `for i := lo; i < hi; i++ { body }`. -/
def forLT {σ : Type} (lo hi : Int) (body : Int → σ → σ) (s : σ) : σ :=
  if lo < hi then forLT (lo + 1) hi body (body lo s) else s
termination_by (hi - lo).toNat
decreasing_by omega

/-- The loop `for a := lo; a <= hi; a += step { body }` with a positive
constant `step`. -/
def forLEStep {σ : Type} (lo hi step : Int) (hstep : 0 < step)
    (body : Int → σ → σ) (s : σ) : σ :=
  if lo ≤ hi then forLEStep (lo + step) hi step hstep body (body lo s) else s
termination_by (hi - lo + 1).toNat
decreasing_by omega

/-! ## The pattern (main.go, lines 47-113) -/

/-- Method `drawShaft` (lines 48-53). -/
def drawShaft (s : State) : State :=
  forLT 0 ShaftLength (fun i s => moveToPosition s s.mover.startX (s.mover.startY + i)) s

/-- The expression `float64(angle) * math.Pi / 180`. -/
def radians (E : FloatEnv) (angle : Int) : E.F :=
  E.div (E.mul (E.ofInt angle) E.pi) (E.ofInt 180)

/-- The expression `float64(r) * math.Cos(radians)`. -/
def cosProduct (E : FloatEnv) (r angle : Int) : E.F :=
  E.mul (E.ofInt r) (E.cos (radians E angle))

/-- The expression `float64(r) * math.Sin(radians)`. -/
def sinProduct (E : FloatEnv) (r angle : Int) : E.F :=
  E.mul (E.ofInt r) (E.sin (radians E angle))

/-- The expression `int(float64(r) * math.Cos(radians))`. -/
def cosOffset (E : FloatEnv) (r angle : Int) : Int :=
  E.toInt (cosProduct E r angle)

/-- The expression `int(float64(r) * math.Sin(radians))`. -/
def sinOffset (E : FloatEnv) (r angle : Int) : Int :=
  E.toInt (sinProduct E r angle)

/-- The local `headCenterY` of `drawHead`. -/
def headCenterY (m : MouseMover) : Int := m.startY + ShaftLength

/-- Method `drawHead` (lines 56-66). -/
def drawHead (E : FloatEnv) (s : State) : State :=
  forLEStep 0 180 5 (by decide)
    (fun angle s =>
      let x := s.mover.startX + cosOffset E HeadRadius angle
      let y := headCenterY s.mover + sinOffset E HeadRadius angle
      moveToPosition s x y) s

/-- The locals `leftCenterX`, `leftCenterY` of `drawBalls`. -/
def leftCenterX (m : MouseMover) : Int := m.startX - BallOffset
def leftCenterY (m : MouseMover) : Int := m.startY - 20

/-- The locals `rightCenterX`, `rightCenterY` of `drawBalls`. -/
def rightCenterX (m : MouseMover) : Int := m.startX + BallOffset
def rightCenterY (m : MouseMover) : Int := m.startY - 20

/-- The first loop of `drawBalls` (the left ball). -/
def drawLeftBall (E : FloatEnv) (s : State) : State :=
  forLEStep 0 360 10 (by decide)
    (fun angle s =>
      let x := leftCenterX s.mover + cosOffset E BallRadius angle
      let y := leftCenterY s.mover + sinOffset E BallRadius angle
      moveToPosition s x y) s

/-- The second loop of `drawBalls` (the right ball). -/
def drawRightBall (E : FloatEnv) (s : State) : State :=
  forLEStep 0 360 10 (by decide)
    (fun angle s =>
      let x := rightCenterX s.mover + cosOffset E BallRadius angle
      let y := rightCenterY s.mover + sinOffset E BallRadius angle
      moveToPosition s x y) s

/-- Method `drawBalls` (lines 69-93): the left ball, then the right ball. -/
def drawBalls (E : FloatEnv) (s : State) : State :=
  drawRightBall E (drawLeftBall E s)

/-- Method `ExecutePattern` (lines 96-113). -/
def ExecutePattern (E : FloatEnv) (s : State) : State :=
  let s := moveToPosition s s.mover.startX s.mover.startY
  let s := drawShaft s
  let s := drawHead E s
  let s := drawBalls E s
  moveToPosition s s.mover.startX s.mover.startY

/-! ## The scheduler and the entry point (main.go, lines 115-173) -/

/-- What one pass through the `select` statement of `KeepActive` receives:
a value from `ticker.C` or a value from `sigChan`. -/
inductive Event where
  | tick
  | signal
deriving DecidableEq, Repr

/-- The two states of the scheduler. -/
inductive Phase where
  | RUNNING
  | STOPPED
deriving DecidableEq, Repr

/-- One pass through `select { ... }` in the loop of `KeepActive`: a tick runs
the pattern and the loop goes on, a signal makes `KeepActive` return.  Once it
has returned nothing is received any more. -/
def selectStep (E : FloatEnv) : Phase × State → Event → Phase × State
  | (Phase.RUNNING, s), Event.tick => (Phase.RUNNING, ExecutePattern E s)
  | (Phase.RUNNING, s), Event.signal => (Phase.STOPPED, s)
  | (Phase.STOPPED, s), _ => (Phase.STOPPED, s)

/-- The loop `for { select { ... } }` of `KeepActive` on the events it
receives.  When the events run out before a signal the loop is still waiting
in `select`. -/
def selectLoop (E : FloatEnv) (events : List Event) (s : State) : Phase × State :=
  events.foldl (selectStep E) (Phase.RUNNING, s)

/-- The deferred `ticker.Stop()`. -/
def stopTicker (s : State) : State :=
  { s with ticker := s.ticker.map (fun t => { t with stopped := true }) }

/-- The argument of `time.NewTicker` in `KeepActive`:
`time.Duration(intervalMinutes) * time.Minute`, an `int64` product. -/
def tickerPeriod (intervalMinutes : Int) : Int :=
  wrapInt64 (intervalMinutes * Minute)

/-- Method `KeepActive` (lines 116-143).  `time.NewTicker` panics on a period that is not positive,
which is the result `none`. -/
def KeepActive (E : FloatEnv) (intervalMinutes : Int) (events : List Event)
    (s : State) : Option (Phase × State) :=
  if tickerPeriod intervalMinutes ≤ 0 then none
  else
    let s := { s with ticker := some ⟨tickerPeriod intervalMinutes, false⟩ }
    let s := ExecutePattern E s
    match selectLoop E events s with
    | (Phase.STOPPED, s) => some (Phase.STOPPED, stopTicker s)
    | (Phase.RUNNING, s) => some (Phase.RUNNING, s)

/-- Function `main` (lines 157-173), with `os.Args`, the screen size reported
by robotgo and the events the scheduler receives as arguments;
`printSystemInfo` only prints.  The phase of the result is
`STOPPED` when `main` has returned. -/
def main (E : FloatEnv) (args : List String) (width height : Int)
    (events : List Event) : Option (Phase × State) :=
  let mover := NewMouseMover width height
  let s : State := { mover := mover, moves := [], ticker := none }
  if 1 < args.length ∧ args[1]? = some "once" then
    some (Phase.STOPPED, ExecutePattern E s)
  else
    let intervalMinutes := 3
    KeepActive E intervalMinutes events s

/-! ## IEEE-754 double precision

The values of `float64` that are numbers: `man * 2 ^ exp`.  Every operation
computes the exact result and rounds it to the nearest value with a 53-bit
significand, ties to even, with exponent at least `-1074`; each product and
each sum is rounded on its own (no fused multiply-add).  Infinities, NaN, the
sign of zero and results beyond the largest finite `float64` are not covered;
the pattern stays far from them. -/

structure F64 where
  man : Int
  exp : Int
deriving DecidableEq, Repr

namespace F64

/-- Binary search for the position of the leading bit of `a`: `acc` is a
position with `2 ^ acc ≤ a`, and the steps `2 ^ (i - 1), ..., 2, 1` remain. -/
def ilog2From (a : Nat) : Nat → Nat → Nat
  | 0, acc => acc
  | i + 1, acc =>
    if 2 ^ (acc + 2 ^ i) ≤ a then ilog2From a i (acc + 2 ^ i) else ilog2From a i acc

/-- The position of the leading bit of `a`, for `0 < a < 2 ^ 4096`:
`2 ^ ilog2 a ≤ a < 2 ^ (ilog2 a + 1)` (`ilog2_spec`).  The integers that occur
in double-precision arithmetic have fewer than 2200 bits. -/
def ilog2 (a : Nat) : Nat := ilog2From a 12 0

/-- The integer nearest to `num / den`, the even one of two that are equally
near. -/
def roundDiv (num den : Nat) : Nat :=
  let q := num / den
  let r := num % den
  if 2 * r < den then q else if den < 2 * r then q + 1
  else if q % 2 = 0 then q else q + 1

/-- The `float64` nearest to `n / d * 2 ^ e` (round to nearest, ties to even),
for `d > 0`: the quotient is scaled by the power `2 ^ k` that brings it into
`[2 ^ 52, 2 ^ 53)`, or by `2 ^ (e + 1074)` when that is less (a subnormal
result), and rounded to an integer. -/
def roundQuot (n : Int) (d : Nat) (e : Int) : F64 :=
  let a := n.natAbs
  if a = 0 then ⟨0, 0⟩ else
    let k0 : Int := 52 + (ilog2 d : Int) - (ilog2 a : Int)
    let k1 : Int :=
      if a * 2 ^ k0.toNat / (d * 2 ^ (-k0).toNat) < 2 ^ 52 then k0 + 1 else k0
    let k : Int := min k1 (e + 1074)
    let q1 := roundDiv (a * 2 ^ k.toNat) (d * 2 ^ (-k).toNat)
    ⟨if n < 0 then -(q1 : Int) else (q1 : Int), e - k⟩

/-- Conversion of an integer to `float64`. -/
def ofInt (n : Int) : F64 := roundQuot n 1 0

/-- A decimal literal `digits * 10 ^ (-scale)` converted to `float64`. -/
def ofDecimal (digits : Int) (scale : Nat) : F64 := roundQuot digits (10 ^ scale) 0

/-- The opposite `-x`. -/
def neg (x : F64) : F64 := ⟨-x.man, x.exp⟩

/-- The product `x * y`. -/
def mul (x y : F64) : F64 := roundQuot (x.man * y.man) 1 (x.exp + y.exp)

/-- The quotient `x / y`, for `y` that is not zero. -/
def div (x y : F64) : F64 :=
  roundQuot (if y.man < 0 then -x.man else x.man) y.man.natAbs (x.exp - y.exp)

/-- The sum `x + y`. -/
def add (x y : F64) : F64 :=
  let e := min x.exp y.exp
  roundQuot (x.man * 2 ^ (x.exp - e).toNat + y.man * 2 ^ (y.exp - e).toNat) 1 e

/-- The difference `x - y`. -/
def sub (x y : F64) : F64 := add x (neg y)

/-- The conversion `int(x)` (and `uint64(x)` for `x ≥ 0`): the fraction is
discarded, that is truncation toward zero. -/
def toInt (x : F64) : Int :=
  if 0 ≤ x.exp then x.man * 2 ^ x.exp.toNat else Int.tdiv x.man (2 ^ (-x.exp).toNat)

/-- The number with the bit pattern `b` of a `float64` (sign, 11 bits of
exponent, 52 bits of fraction), for a pattern that is not an infinity or a
NaN. -/
def ofBits (b : Nat) : F64 :=
  let sign : Int := if b >>> 63 = 1 then -1 else 1
  let e := (b >>> 52) &&& 0x7ff
  let f := b &&& 0xfffffffffffff
  if e = 0 then ⟨sign * f, -1074⟩ else ⟨sign * (2 ^ 52 + f : Nat), (e : Int) - 1075⟩

/-- The largest integer not above `x` (what rounding down would give). -/
def floor (x : F64) : Int :=
  if 0 ≤ x.exp then x.man * 2 ^ x.exp.toNat else x.man / 2 ^ (-x.exp).toNat

/-- The integer nearest to `x`, halves upward (what rounding would give). -/
def nearest (x : F64) : Int :=
  if 0 ≤ x.exp then x.man * 2 ^ x.exp.toNat
  else (2 * x.man + 2 ^ (-x.exp).toNat) / 2 ^ ((-x.exp).toNat + 1)

end F64

/-! ## `math.Pi`, `math.Sin` and `math.Cos` (Go's package `math`, `const.go`
and the portable `sin.go`) -/

namespace GoMath

open F64

/-- The constant `math.Pi` (its decimal expansion in `const.go`), converted
to `float64`. -/
def Pi : F64 :=
  ofDecimal 314159265358979323846264338327950288419716939937510582097494459 62

/-- The constant expression `4 / Pi`, evaluated exactly and converted to
`float64`. -/
def fourOverPi : F64 :=
  roundQuot (4 * 10 ^ 62) 314159265358979323846264338327950288419716939937510582097494459 0

/-- The constants `PI4A = 7.85398125648498535156e-1`,
`PI4B = 3.77489470793079817668e-8` and `PI4C = 2.69515142907905952645e-15`. -/
def PI4A : F64 := ofDecimal 785398125648498535156 21
def PI4B : F64 := ofDecimal 377489470793079817668 28
def PI4C : F64 := ofDecimal 269515142907905952645 35

/-- The table `_sin`. -/
def sinCoef0 : F64 := ofDecimal 158962301576546568060 30
def sinCoef1 : F64 := ofDecimal (-250507477628578072866) 28
def sinCoef2 : F64 := ofDecimal 275573136213857245213 26
def sinCoef3 : F64 := ofDecimal (-198412698295895385996) 24
def sinCoef4 : F64 := ofDecimal 833333333332211858878 23
def sinCoef5 : F64 := ofDecimal (-166666666666666307295) 21

/-- The table `_cos`. -/
def cosCoef0 : F64 := ofDecimal (-113585365213876817300) 31
def cosCoef1 : F64 := ofDecimal 208757008419747316778 29
def cosCoef2 : F64 := ofDecimal (-275573141792967388112) 27
def cosCoef3 : F64 := ofDecimal 248015872888517045348 25
def cosCoef4 : F64 := ofDecimal (-138888888888730564116) 23
def cosCoef5 : F64 := ofDecimal 416666666666665929218 22

/-- The polynomial
`z + z*zz*((((((_sin[0]*zz)+_sin[1])*zz+_sin[2])*zz+_sin[3])*zz+_sin[4])*zz+_sin[5])`. -/
def sinPoly (z : F64) : F64 :=
  let zz := mul z z
  add z (mul (mul z zz)
    (add (mul (add (mul (add (mul (add (mul (add (mul sinCoef0 zz) sinCoef1) zz)
      sinCoef2) zz) sinCoef3) zz) sinCoef4) zz) sinCoef5))

/-- The polynomial
`1.0 - 0.5*zz + zz*zz*((((((_cos[0]*zz)+_cos[1])*zz+_cos[2])*zz+_cos[3])*zz+_cos[4])*zz+_cos[5])`. -/
def cosPoly (z : F64) : F64 :=
  let zz := mul z z
  add (sub (ofInt 1) (mul (ofDecimal 5 1) zz)) (mul (mul zz zz)
    (add (mul (add (mul (add (mul (add (mul (add (mul cosCoef0 zz) cosCoef1) zz)
      cosCoef2) zz) cosCoef3) zz) cosCoef4) zz) cosCoef5))

/-- The octant `j` (before `j &= 7`) and the reduced argument `z` of a
non-negative `x` below `reduceThreshold`. -/
def reduce (x : F64) : Nat × F64 :=
  let j0 := (toInt (mul x fourOverPi)).toNat
  let y0 := ofInt j0
  let j := if j0 &&& 1 = 1 then j0 + 1 else j0
  let y := if j0 &&& 1 = 1 then add y0 (ofInt 1) else y0
  (j, sub (sub (sub x (mul y PI4A)) (mul y PI4B)) (mul y PI4C))

/-- Function `math.Cos` on arguments of absolute value below `reduceThreshold = 1 << 29`
(the branch of larger arguments, `trigReduce`, is not rendered). -/
def Cos (x : F64) : F64 :=
  let x := if x.man < 0 then neg x else x
  let (j, z) := reduce x
  let j := j &&& 7
  let sign := false
  let sign := if 3 < j then !sign else sign
  let j := if 3 < j then j - 4 else j
  let sign := if 1 < j then !sign else sign
  let y := if j = 1 ∨ j = 2 then sinPoly z else cosPoly z
  if sign then neg y else y

/-- Function `math.Sin` on arguments of absolute value below `reduceThreshold = 1 << 29`
(the branch of larger arguments, `trigReduce`, is not rendered). -/
def Sin (x : F64) : F64 :=
  if x.man = 0 then x else
    let sign := decide (x.man < 0)
    let x := if x.man < 0 then neg x else x
    let (j, z) := reduce x
    let j := j &&& 7
    let sign := if 3 < j then !sign else sign
    let j := if 3 < j then j - 4 else j
    let y := if j = 1 ∨ j = 2 then cosPoly z else sinPoly z
    if sign then neg y else y

end GoMath

/-- Double precision and Go's `math` package as the floating-point operations
of the drawing functions. -/
def binary64 : FloatEnv :=
  { F := F64
    ofInt := F64.ofInt
    pi := GoMath.Pi
    mul := F64.mul
    div := F64.div
    cos := GoMath.Cos
    sin := GoMath.Sin
    toInt := F64.toInt }

/-! ## Closed forms used in the statements -/

/-- The positions a method hands to the cursor when it starts from an empty
log. -/
def emitted (f : State → State) (m : MouseMover) : List (Int × Int) :=
  (f { mover := m, moves := [], ticker := none }).moves

/-- The four phases, as one list. -/
def waypoints (E : FloatEnv) (m : MouseMover) : List (Int × Int) :=
  emitted drawShaft m ++ emitted (drawHead E) m ++ emitted (drawLeftBall E) m
    ++ emitted (drawRightBall E) m

/-- The truncated offsets of the head, one pair for each index of the loop of
`drawHead` (angle `5 * k`). -/
def headOffsets (E : FloatEnv) : List (Int × Int) :=
  (List.range 37).map
    (fun k : Nat => (cosOffset E HeadRadius (5 * k), sinOffset E HeadRadius (5 * k)))

/-- The truncated offsets of a ball, one pair for each index of a loop of
`drawBalls` (angle `10 * k`). -/
def ballOffsets (E : FloatEnv) : List (Int × Int) :=
  (List.range 37).map
    (fun k : Nat => (cosOffset E BallRadius (10 * k), sinOffset E BallRadius (10 * k)))

/-- The point at offset `d` from the center `c`. -/
def shift (c d : Int × Int) : Int × Int := (c.1 + d.1, c.2 + d.2)

/-- The box of claim C10 around the anchor of `m`. -/
def inBox (m : MouseMover) (p : Int × Int) : Prop :=
  m.startX - 70 ≤ p.1 ∧ p.1 ≤ m.startX + 70 ∧ m.startY - 50 ≤ p.2 ∧ p.2 ≤ m.startY + 250

/-- The integer `n` is `x` truncated toward zero: for `x ≥ 0` the largest
integer not above `x`, for `x ≤ 0` the smallest integer not below `x`
(`exactTrunc_unique`, `exactTrunc_floor`). -/
def ExactTrunc (x : ℝ) (n : ℤ) : Prop :=
  (0 ≤ x → (n : ℝ) ≤ x ∧ x < n + 1) ∧ (x ≤ 0 → (n : ℝ) - 1 < x ∧ x ≤ n)

/-- The pair `d` is what the formula of claim C3 gives in exact real
arithmetic for the radius `r` and the angle of `a` degrees:
`(trunc (r * cos a), trunc (r * sin a))`. -/
def ExactOffset (r a : ℤ) (d : ℤ × ℤ) : Prop :=
  ExactTrunc ((r : ℝ) * Real.cos ((a : ℝ) * Real.pi / 180)) d.1
    ∧ ExactTrunc ((r : ℝ) * Real.sin ((a : ℝ) * Real.pi / 180)) d.2

/-- Bounds for the cosine and the sine of `x`. -/
def TrigBounds (x cl cu sl su : ℝ) : Prop :=
  cl ≤ Real.cos x ∧ Real.cos x ≤ cu ∧ sl ≤ Real.sin x ∧ Real.sin x ≤ su

/-- The offsets of the head that the formula of claim C3 gives in exact real
arithmetic, `(trunc (50 * cos a), trunc (50 * sin a))` for the angles
`a = 0, 5, ..., 180` degrees (`headExact_spec`). -/
def headExact : List (Int × Int) :=
  [(50, 0), (49, 4), (49, 8), (48, 12), (46, 17), (45, 21), (43, 25), (40, 28), (38, 32),
       (35, 35), (32, 38), (28, 40), (25, 43), (21, 45), (17, 46), (12, 48), (8, 49), (4, 49),
       (0, 50), (-4, 49), (-8, 49), (-12, 48), (-17, 46), (-21, 45), (-25, 43), (-28, 40),
       (-32, 38), (-35, 35), (-38, 32), (-40, 28), (-43, 25), (-45, 21), (-46, 17), (-48, 12),
       (-49, 8), (-49, 4), (-50, 0)]

/-- The offsets of a ball that the formula of claim C3 gives in exact real
arithmetic, `(trunc (30 * cos a), trunc (30 * sin a))` for the angles
`a = 0, 10, ..., 360` degrees (`ballExact_spec`). -/
def ballExact : List (Int × Int) :=
  [(30, 0), (29, 5), (28, 10), (25, 15), (22, 19), (19, 22), (15, 25), (10, 28), (5, 29),
       (0, 30), (-5, 29), (-10, 28), (-15, 25), (-19, 22), (-22, 19), (-25, 15), (-28, 10),
       (-29, 5), (-30, 0), (-29, -5), (-28, -10), (-25, -15), (-22, -19), (-19, -22),
       (-15, -25), (-10, -28), (-5, -29), (0, -30), (5, -29), (10, -28), (15, -25), (19, -22),
       (22, -19), (25, -15), (28, -10), (29, -5), (30, 0)]

/-- The number of ticks received before the first signal. -/
def ticksBeforeSignal (events : List Event) : Nat :=
  (events.takeWhile (fun e => e = Event.tick)).length

/-! ## Loops as folds -/

theorem foldl_range_succ_front {σ : Type} (f : σ → Nat → σ) (n : Nat) (s : σ) :
    (List.range (n + 1)).foldl f s = (List.range n).foldl (fun t k => f t (k + 1)) (f s 0) := by
  rw [List.range_succ_eq_map, List.foldl_cons, List.foldl_map]

theorem forLT_eq_foldl {σ : Type} (body : Int → σ → σ) (hi : Int) :
    ∀ (n : Nat) (lo : Int) (s : σ), (hi - lo).toNat = n →
      forLT lo hi body s = (List.range n).foldl (fun t k => body (lo + (k : Nat)) t) s := by
  intro n
  induction n with
  | zero =>
    intro lo s h
    rw [forLT, if_neg (by omega)]
    rfl
  | succ n ih =>
    intro lo s h
    rw [forLT, if_pos (by omega), ih (lo + 1) (body lo s) (by omega), foldl_range_succ_front]
    simp only [Nat.cast_zero, add_zero, Nat.cast_add, Nat.cast_one]
    congr 1
    funext t k
    congr 1
    ring

theorem forLEStep_eq_foldl {σ : Type} (body : Int → σ → σ) (hi step : Int) (hstep : 0 < step) :
    ∀ (n : Nat) (lo : Int) (s : σ), ((hi - lo + step) / step).toNat = n →
      forLEStep lo hi step hstep body s
        = (List.range n).foldl (fun t k => body (lo + (k : Nat) * step) t) s := by
  intro n
  induction n with
  | zero =>
    intro lo s h
    have hlt : ¬ lo ≤ hi := by
      intro hle
      have h1 : 1 ≤ (hi - lo + step) / step := by
        rw [Int.le_ediv_iff_mul_le hstep]
        omega
      omega
    rw [forLEStep, if_neg hlt]
    rfl
  | succ n ih =>
    intro lo s h
    have hle : lo ≤ hi := by
      by_contra hlt
      have h1 : (hi - lo + step) / step < 1 := by
        apply Int.ediv_lt_of_lt_mul hstep
        omega
      omega
    have hcount : ((hi - (lo + step) + step) / step).toNat = n := by
      have e1 : hi - lo + step = (hi - (lo + step) + step) + 1 * step := by ring
      rw [e1, Int.add_mul_ediv_right _ _ (ne_of_gt hstep)] at h
      have h0 : 0 ≤ (hi - (lo + step) + step) / step := by
        apply Int.ediv_nonneg <;> omega
      omega
    rw [forLEStep, if_pos hle, ih (lo + step) (body lo s) hcount, foldl_range_succ_front]
    simp only [Nat.cast_zero, zero_mul, add_zero, Nat.cast_add, Nat.cast_one]
    congr 1
    funext t k
    congr 1
    ring

/-- A fold whose body moves the cursor to a point computed from the receiver
appends those points, in order, and changes nothing else. -/
theorem foldl_moveToPosition (g : MouseMover → Nat → Int × Int) (l : List Nat) :
    ∀ s : State,
      l.foldl (fun t k => moveToPosition t (g t.mover k).1 (g t.mover k).2) s
        = { s with moves := s.moves ++ l.map (g s.mover) } := by
  induction l with
  | nil => intro s; simp
  | cons k l ih =>
    intro s
    rw [List.foldl_cons, ih]
    simp [moveToPosition]

/-! ## What each drawing method does to the state -/

theorem drawShaft_eq (s : State) :
    drawShaft s = { s with moves := (s.moves ++
      (List.range 200).map (fun i : Nat => (s.mover.startX, s.mover.startY + (i : Int)))) } := by
  unfold drawShaft
  rw [forLT_eq_foldl _ _ 200 0 s (by decide)]
  have h := foldl_moveToPosition
    (fun m i => (m.startX, m.startY + (0 + (i : Int)))) (List.range 200) s
  simp only [zero_add] at h ⊢
  exact h

theorem drawHead_eq (E : FloatEnv) (s : State) :
    drawHead E s = { s with moves := (s.moves ++
      (headOffsets E).map (shift (s.mover.startX, headCenterY s.mover))) } := by
  unfold drawHead
  rw [forLEStep_eq_foldl _ _ _ _ 37 0 s (by decide)]
  have h := foldl_moveToPosition
    (fun m k => (m.startX + cosOffset E HeadRadius (0 + (k : Int) * 5),
      headCenterY m + sinOffset E HeadRadius (0 + (k : Int) * 5))) (List.range 37) s
  simp only [zero_add] at h ⊢
  rw [h, headOffsets, List.map_map]
  refine congrArg (fun l => ({ s with moves := s.moves ++ l } : State)) ?_
  apply List.map_congr_left
  intro k _
  simp [shift, mul_comm]

theorem drawLeftBall_eq (E : FloatEnv) (s : State) :
    drawLeftBall E s = { s with moves := (s.moves ++
      (ballOffsets E).map (shift (leftCenterX s.mover, leftCenterY s.mover))) } := by
  unfold drawLeftBall
  rw [forLEStep_eq_foldl _ _ _ _ 37 0 s (by decide)]
  have h := foldl_moveToPosition
    (fun m k => (leftCenterX m + cosOffset E BallRadius (0 + (k : Int) * 10),
      leftCenterY m + sinOffset E BallRadius (0 + (k : Int) * 10))) (List.range 37) s
  simp only [zero_add] at h ⊢
  rw [h, ballOffsets, List.map_map]
  refine congrArg (fun l => ({ s with moves := s.moves ++ l } : State)) ?_
  apply List.map_congr_left
  intro k _
  simp [shift, mul_comm]

theorem drawRightBall_eq (E : FloatEnv) (s : State) :
    drawRightBall E s = { s with moves := (s.moves ++
      (ballOffsets E).map (shift (rightCenterX s.mover, rightCenterY s.mover))) } := by
  unfold drawRightBall
  rw [forLEStep_eq_foldl _ _ _ _ 37 0 s (by decide)]
  have h := foldl_moveToPosition
    (fun m k => (rightCenterX m + cosOffset E BallRadius (0 + (k : Int) * 10),
      rightCenterY m + sinOffset E BallRadius (0 + (k : Int) * 10))) (List.range 37) s
  simp only [zero_add] at h ⊢
  rw [h, ballOffsets, List.map_map]
  refine congrArg (fun l => ({ s with moves := s.moves ++ l } : State)) ?_
  apply List.map_congr_left
  intro k _
  simp [shift, mul_comm]

theorem drawBalls_eq (E : FloatEnv) (s : State) :
    drawBalls E s = { s with moves := (s.moves ++
      ((ballOffsets E).map (shift (leftCenterX s.mover, leftCenterY s.mover)) ++
       (ballOffsets E).map (shift (rightCenterX s.mover, rightCenterY s.mover)))) } := by
  unfold drawBalls
  rw [drawLeftBall_eq, drawRightBall_eq]
  simp

theorem emitted_def (f : State → State) (m : MouseMover) :
    emitted f m = (f { mover := m, moves := [], ticker := none }).moves := rfl

theorem emitted_drawShaft (m : MouseMover) :
    emitted drawShaft m
      = (List.range 200).map (fun i : Nat => (m.startX, m.startY + (i : Int))) := by
  rw [emitted_def, drawShaft_eq]
  exact List.nil_append _

theorem emitted_drawHead (E : FloatEnv) (m : MouseMover) :
    emitted (drawHead E) m = (headOffsets E).map (shift (m.startX, headCenterY m)) := by
  rw [emitted_def, drawHead_eq]
  exact List.nil_append _

theorem emitted_drawLeftBall (E : FloatEnv) (m : MouseMover) :
    emitted (drawLeftBall E) m = (ballOffsets E).map (shift (leftCenterX m, leftCenterY m)) := by
  rw [emitted_def, drawLeftBall_eq]
  exact List.nil_append _

theorem emitted_drawRightBall (E : FloatEnv) (m : MouseMover) :
    emitted (drawRightBall E) m
      = (ballOffsets E).map (shift (rightCenterX m, rightCenterY m)) := by
  rw [emitted_def, drawRightBall_eq]
  exact List.nil_append _

theorem emitted_drawBalls (E : FloatEnv) (m : MouseMover) :
    emitted (drawBalls E) m = emitted (drawLeftBall E) m ++ emitted (drawRightBall E) m := by
  rw [emitted_drawLeftBall, emitted_drawRightBall, emitted_def, drawBalls_eq]
  simp

theorem length_headOffsets (E : FloatEnv) : (headOffsets E).length = 37 := by
  simp [headOffsets]

theorem length_ballOffsets (E : FloatEnv) : (ballOffsets E).length = 37 := by
  simp [ballOffsets]

theorem length_waypoints (E : FloatEnv) (m : MouseMover) : (waypoints E m).length = 311 := by
  rw [waypoints, emitted_drawShaft, emitted_drawHead, emitted_drawLeftBall,
    emitted_drawRightBall]
  simp [length_headOffsets, length_ballOffsets]

theorem ExecutePattern_def (E : FloatEnv) (s : State) :
    ExecutePattern E s
      = moveToPosition
          (drawBalls E (drawHead E (drawShaft (moveToPosition s s.mover.startX s.mover.startY))))
          (drawBalls E (drawHead E (drawShaft
            (moveToPosition s s.mover.startX s.mover.startY)))).mover.startX
          (drawBalls E (drawHead E (drawShaft
            (moveToPosition s s.mover.startX s.mover.startY)))).mover.startY := rfl

/-- Method `ExecutePattern` appends a move to the anchor, the four phases and a move
to the anchor, and changes nothing else. -/
theorem ExecutePattern_eq (E : FloatEnv) (s : State) :
    ExecutePattern E s = { s with moves := (s.moves ++
      ((s.mover.startX, s.mover.startY) :: waypoints E s.mover
        ++ [(s.mover.startX, s.mover.startY)])) } := by
  rw [ExecutePattern_def, drawShaft_eq, drawHead_eq, drawBalls_eq, waypoints,
    emitted_drawShaft, emitted_drawHead, emitted_drawLeftBall, emitted_drawRightBall]
  simp [moveToPosition]

theorem emitted_ExecutePattern (E : FloatEnv) (m : MouseMover) :
    emitted (ExecutePattern E) m
      = (m.startX, m.startY) :: waypoints E m ++ [(m.startX, m.startY)] := by
  rw [emitted_def, ExecutePattern_eq]
  exact List.nil_append _

theorem length_emitted_ExecutePattern (E : FloatEnv) (m : MouseMover) :
    (emitted (ExecutePattern E) m).length = 313 := by
  rw [emitted_ExecutePattern, List.length_append, List.length_cons, length_waypoints]
  rfl

theorem headOffsets_map_shift (E : FloatEnv) (c : Int × Int) :
    (headOffsets E).map (shift c)
      = (List.range 37).map (fun k : Nat =>
          (c.1 + cosOffset E HeadRadius (5 * k), c.2 + sinOffset E HeadRadius (5 * k))) := by
  rw [headOffsets, List.map_map]
  rfl

theorem ballOffsets_map_shift (E : FloatEnv) (c : Int × Int) :
    (ballOffsets E).map (shift c)
      = (List.range 37).map (fun k : Nat =>
          (c.1 + cosOffset E BallRadius (10 * k), c.2 + sinOffset E BallRadius (10 * k))) := by
  rw [ballOffsets, List.map_map]
  rfl

theorem head_waypoints (E : FloatEnv) (m : MouseMover) :
    (waypoints E m).head? = some (m.startX, m.startY) := by
  rw [waypoints, emitted_drawShaft, show (200 : Nat) = 199 + 1 from rfl,
    List.range_succ_eq_map]
  simp only [List.map_cons, List.cons_append, List.head?_cons, Nat.cast_zero, add_zero]

/-! ## The scheduler -/

theorem ExecutePattern_mk (E : FloatEnv) (m : MouseMover) (mv : List (Int × Int))
    (t : Option Ticker) :
    ExecutePattern E { mover := m, moves := mv, ticker := t }
      = { mover := m, moves := mv ++ emitted (ExecutePattern E) m, ticker := t } := by
  rw [ExecutePattern_eq, emitted_ExecutePattern]

theorem ticksBeforeSignal_tick (rest : List Event) :
    ticksBeforeSignal (Event.tick :: rest) = ticksBeforeSignal rest + 1 := by
  simp [ticksBeforeSignal, List.takeWhile_cons]

theorem ticksBeforeSignal_signal (rest : List Event) :
    ticksBeforeSignal (Event.signal :: rest) = 0 := by
  simp [ticksBeforeSignal, List.takeWhile_cons]

theorem selectStep_tick (E : FloatEnv) (s : State) :
    selectStep E (Phase.RUNNING, s) Event.tick = (Phase.RUNNING, ExecutePattern E s) := rfl

theorem selectStep_signal (E : FloatEnv) (s : State) :
    selectStep E (Phase.RUNNING, s) Event.signal = (Phase.STOPPED, s) := rfl

theorem selectStep_stopped (E : FloatEnv) (s : State) (e : Event) :
    selectStep E (Phase.STOPPED, s) e = (Phase.STOPPED, s) := rfl

theorem foldl_selectStep_stopped (E : FloatEnv) (events : List Event) (s : State) :
    events.foldl (selectStep E) (Phase.STOPPED, s) = (Phase.STOPPED, s) := by
  induction events with
  | nil => rfl
  | cons e rest ih => rw [List.foldl_cons, selectStep_stopped, ih]

/-- The loop of `select` statements for any method that only appends `em m` to
the log. -/
theorem selectLoop_of_appends (E : FloatEnv) (em : MouseMover → List (Int × Int))
    (hem : ∀ m mv t, ExecutePattern E { mover := m, moves := mv, ticker := t }
      = { mover := m, moves := mv ++ em m, ticker := t }) :
    ∀ (events : List Event) (m : MouseMover) (mv : List (Int × Int)) (t : Option Ticker),
      selectLoop E events { mover := m, moves := mv, ticker := t }
        = (if Event.signal ∈ events then Phase.STOPPED else Phase.RUNNING,
            { mover := m
              moves := mv ++ (List.replicate (ticksBeforeSignal events) (em m)).flatten
              ticker := t }) := by
  intro events
  unfold selectLoop
  induction events with
  | nil =>
    intro m mv t
    simp [ticksBeforeSignal]
  | cons e rest ih =>
    intro m mv t
    cases e with
    | tick =>
      rw [List.foldl_cons, selectStep_tick, hem, ih, ticksBeforeSignal_tick]
      simp [List.replicate_succ]
    | signal =>
      rw [List.foldl_cons, selectStep_signal, foldl_selectStep_stopped,
        ticksBeforeSignal_signal]
      simp

theorem selectLoop_eq (E : FloatEnv) (events : List Event) (m : MouseMover)
    (mv : List (Int × Int)) (t : Option Ticker) :
    selectLoop E events { mover := m, moves := mv, ticker := t }
      = (if Event.signal ∈ events then Phase.STOPPED else Phase.RUNNING,
          { mover := m
            moves := mv ++ (List.replicate (ticksBeforeSignal events)
              (emitted (ExecutePattern E) m)).flatten
            ticker := t }) :=
  selectLoop_of_appends E (fun m => emitted (ExecutePattern E) m) (ExecutePattern_mk E)
    events m mv t

theorem KeepActive_def (E : FloatEnv) (n : Int) (events : List Event) (s : State) :
    KeepActive E n events s
      = if tickerPeriod n ≤ 0 then none
        else
          match selectLoop E events
            (ExecutePattern E { s with ticker := some ⟨tickerPeriod n, false⟩ }) with
          | (Phase.STOPPED, s) => some (Phase.STOPPED, stopTicker s)
          | (Phase.RUNNING, s) => some (Phase.RUNNING, s) := rfl

/-- Method `KeepActive` with a positive period, in closed form. -/
theorem KeepActive_eq (E : FloatEnv) (n : Int) (hn : 0 < tickerPeriod n)
    (events : List Event) (s : State) :
    KeepActive E n events s
      = some (if Event.signal ∈ events then Phase.STOPPED else Phase.RUNNING,
          { mover := s.mover
            moves := s.moves ++ (List.replicate (1 + ticksBeforeSignal events)
              (emitted (ExecutePattern E) s.mover)).flatten
            ticker := some ⟨tickerPeriod n, decide (Event.signal ∈ events)⟩ }) := by
  rw [KeepActive_def, if_neg (not_le.mpr hn), ExecutePattern_mk, selectLoop_eq]
  generalize emitted (ExecutePattern E) s.mover = em
  by_cases hsig : Event.signal ∈ events
  · simp [hsig, stopTicker, Nat.add_comm 1, List.replicate_succ]
  · simp [hsig, Nat.add_comm 1, List.replicate_succ]

theorem ticksBeforeSignal_append_of_mem (events later : List Event)
    (h : Event.signal ∈ events) :
    ticksBeforeSignal (events ++ later) = ticksBeforeSignal events := by
  induction events with
  | nil => simp at h
  | cons e rest ih =>
    cases e with
    | tick =>
      have h' : Event.signal ∈ rest := by simpa using h
      rw [List.cons_append, ticksBeforeSignal_tick, ticksBeforeSignal_tick, ih h']
    | signal =>
      rw [List.cons_append, ticksBeforeSignal_signal, ticksBeforeSignal_signal]

theorem main_def (E : FloatEnv) (args : List String) (w h : Int) (events : List Event) :
    main E args w h events
      = if 1 < args.length ∧ args[1]? = some "once" then
          some (Phase.STOPPED,
            ExecutePattern E { mover := NewMouseMover w h, moves := [], ticker := none })
        else KeepActive E 3 events { mover := NewMouseMover w h, moves := [], ticker := none } :=
  rfl

/-! ## Double precision: checks of the arithmetic -/

theorem F64.ilog2From_spec (a : Nat) :
    ∀ (i acc : Nat), 2 ^ acc ≤ a → a < 2 ^ (acc + 2 ^ i) →
      2 ^ F64.ilog2From a i acc ≤ a ∧ a < 2 ^ (F64.ilog2From a i acc + 1) := by
  intro i
  induction i with
  | zero =>
    intro acc h1 h2
    exact ⟨h1, h2⟩
  | succ i ih =>
    intro acc h1 h2
    unfold F64.ilog2From
    by_cases h : 2 ^ (acc + 2 ^ i) ≤ a
    · rw [if_pos h]
      refine ih (acc + 2 ^ i) h ?_
      have e : acc + 2 ^ i + 2 ^ i = acc + 2 ^ (i + 1) := by
        rw [pow_succ]
        omega
      rw [e]
      exact h2
    · rw [if_neg h]
      exact ih acc h1 (not_le.mp h)

/-- The result of `ilog2` is the position of the leading bit. -/
theorem F64.ilog2_spec (a : Nat) (h0 : 0 < a) (h1 : a < 2 ^ 2 ^ 12) :
    2 ^ F64.ilog2 a ≤ a ∧ a < 2 ^ (F64.ilog2 a + 1) :=
  F64.ilog2From_spec a 12 0 h0 (by rw [Nat.zero_add]; exact h1)

/-- The result of `roundDiv` is within one half of the quotient, and even when
it is exactly one half away. -/
theorem F64.roundDiv_spec (num den : Nat) (hden : 0 < den) :
    2 * ((num : Int) - (F64.roundDiv num den : Nat) * den).natAbs ≤ den
      ∧ (2 * ((num : Int) - (F64.roundDiv num den : Nat) * den).natAbs = den →
          F64.roundDiv num den % 2 = 0) := by
  have hdm := Nat.div_add_mod num den
  have hlt := Nat.mod_lt num hden
  have hq : (num : Int) = (den : Int) * (num / den : Nat) + (num % den : Nat) := by
    exact_mod_cast hdm.symm
  unfold F64.roundDiv
  dsimp only
  by_cases h1 : 2 * (num % den) < den
  · rw [if_pos h1]
    have e : (num : Int) - ((num / den : Nat) : Int) * den = (num % den : Nat) := by
      rw [hq]
      push_cast
      ring
    rw [e, Int.natAbs_ofNat]
    exact ⟨by omega, by omega⟩
  · rw [if_neg h1]
    by_cases h2 : den < 2 * (num % den)
    · rw [if_pos h2]
      have e : (num : Int) - ((num / den + 1 : Nat) : Int) * den
          = -((den - num % den : Nat) : Int) := by
        rw [hq, Nat.cast_sub (le_of_lt hlt)]
        push_cast
        ring
      rw [e, Int.natAbs_neg, Int.natAbs_ofNat]
      exact ⟨by omega, by omega⟩
    · rw [if_neg h2]
      by_cases h3 : num / den % 2 = 0
      · rw [if_pos h3]
        have e : (num : Int) - ((num / den : Nat) : Int) * den = (num % den : Nat) := by
          rw [hq]
          push_cast
          ring
        rw [e, Int.natAbs_ofNat]
        exact ⟨by omega, fun _ => h3⟩
      · rw [if_neg h3]
        have e : (num : Int) - ((num / den + 1 : Nat) : Int) * den
            = -((den - num % den : Nat) : Int) := by
          rw [hq, Nat.cast_sub (le_of_lt hlt)]
          push_cast
          ring
        rw [e, Int.natAbs_neg, Int.natAbs_ofNat]
        exact ⟨by omega, fun _ => by omega⟩

/-- The constants of Go's `math` package have the bit patterns that its
source gives next to them. -/
theorem GoMath.constants_bits :
    GoMath.Pi = F64.ofBits 0x400921fb54442d18
      ∧ GoMath.fourOverPi = F64.ofBits 0x3ff45f306dc9c883
      ∧ GoMath.PI4A = F64.ofBits 0x3fe921fb40000000
      ∧ GoMath.PI4B = F64.ofBits 0x3e64442d00000000
      ∧ GoMath.PI4C = F64.ofBits 0x3ce8469898cc5170
      ∧ GoMath.sinCoef0 = F64.ofBits 0x3de5d8fd1fd19ccd
      ∧ GoMath.sinCoef1 = F64.ofBits 0xbe5ae5e5a9291f5d
      ∧ GoMath.sinCoef2 = F64.ofBits 0x3ec71de3567d48a1
      ∧ GoMath.sinCoef3 = F64.ofBits 0xbf2a01a019bfdf03
      ∧ GoMath.sinCoef4 = F64.ofBits 0x3f8111111110f7d0
      ∧ GoMath.sinCoef5 = F64.ofBits 0xbfc5555555555548
      ∧ GoMath.cosCoef0 = F64.ofBits 0xbda8fa49a0861a9b
      ∧ GoMath.cosCoef1 = F64.ofBits 0x3e21ee9d7b4e3f05
      ∧ GoMath.cosCoef2 = F64.ofBits 0xbe927e4f7eac4bc6
      ∧ GoMath.cosCoef3 = F64.ofBits 0x3efa01a019c844f5
      ∧ GoMath.cosCoef4 = F64.ofBits 0xbf56c16c16c14f91
      ∧ GoMath.cosCoef5 = F64.ofBits 0x3fa555555555554b := by
  decide!

/-- Three well-known roundings: `0.1 + 0.2`, `1.0 / 3.0` and `0.1 * 3.0`. -/
theorem F64.arithmetic_checks :
    F64.add (F64.ofDecimal 1 1) (F64.ofDecimal 2 1) = F64.ofBits 0x3fd3333333333334
      ∧ F64.div (F64.ofInt 1) (F64.ofInt 3) = F64.ofBits 0x3fd5555555555555
      ∧ F64.mul (F64.ofDecimal 1 1) (F64.ofInt 3) = F64.ofBits 0x3fd3333333333334 := by
  decide!

/-- The angles 30 and 90 degrees in double precision: `math.Sin` gives the
`float64` just below one half at 30 degrees, so that `50 * sin` is just below
25 and converts to 24, and exactly 1 at 90 degrees. -/
theorem GoMath.sin_checks :
    F64.ofBits 0x3fe0c152382d7365 = radians binary64 30
      ∧ F64.ofBits 0x3fdfffffffffffff = GoMath.Sin (radians binary64 30)
      ∧ F64.ofBits 0x4038ffffffffffff = sinProduct binary64 HeadRadius 30
      ∧ sinOffset binary64 HeadRadius 30 = 24
      ∧ F64.ofBits 0x3ff921fb54442d18 = radians binary64 90
      ∧ F64.ofBits 0x3ff0000000000000 = GoMath.Sin (radians binary64 90) := by
  decide!

/-! ## The offsets in double precision -/

theorem headOffsets_binary64 :
    headOffsets binary64
      = [(50, 0), (49, 4), (49, 8), (48, 12), (46, 17), (45, 21), (43, 24), (40, 28),
         (38, 32), (35, 35), (32, 38), (28, 40), (25, 43), (21, 45), (17, 46), (12, 48),
         (8, 49), (4, 49), (0, 50), (-4, 49), (-8, 49), (-12, 48), (-17, 46), (-21, 45),
         (-24, 43), (-28, 40), (-32, 38), (-35, 35), (-38, 32), (-40, 28), (-43, 24),
         (-45, 21), (-46, 17), (-48, 12), (-49, 8), (-49, 4), (-50, 0)] := by
  decide!

theorem ballOffsets_binary64 :
    ballOffsets binary64
      = [(30, 0), (29, 5), (28, 10), (25, 14), (22, 19), (19, 22), (15, 25), (10, 28),
         (5, 29), (0, 30), (-5, 29), (-10, 28), (-14, 25), (-19, 22), (-22, 19), (-25, 14),
         (-28, 10), (-29, 5), (-30, 0), (-29, -5), (-28, -10), (-25, -15), (-22, -19),
         (-19, -22), (-15, -25), (-10, -28), (-5, -29), (0, -30), (5, -29), (10, -28),
         (15, -25), (19, -22), (22, -19), (25, -15), (28, -10), (29, -5), (30, 0)] := by
  decide!

theorem headOffsets_binary64_bounds :
    ∀ d ∈ headOffsets binary64, -50 ≤ d.1 ∧ d.1 ≤ 50 ∧ 0 ≤ d.2 ∧ d.2 ≤ 50 := by
  rw [headOffsets_binary64]
  decide

theorem ballOffsets_binary64_bounds :
    ∀ d ∈ ballOffsets binary64, -30 ≤ d.1 ∧ d.1 ≤ 30 ∧ -30 ≤ d.2 ∧ d.2 ≤ 30 := by
  rw [ballOffsets_binary64]
  decide

/-- The conversion to `int` is truncation toward zero: the floor of a value
that is not negative, minus the floor of the opposite of a negative one. -/
theorem F64.toInt_truncates (x : F64) :
    F64.toInt x = if 0 ≤ x.man then F64.floor x else -F64.floor (F64.neg x) := by
  unfold F64.toInt F64.floor F64.neg
  by_cases he : 0 ≤ x.exp
  · by_cases hm : 0 ≤ x.man
    · simp only [he, hm, if_true]
    · simp only [he, hm, if_true, if_false]
      ring
  · have hd : (0 : Int) ≤ 2 ^ (-x.exp).toNat := by positivity
    by_cases hm : 0 ≤ x.man
    · simp only [he, hm, if_true, if_false]
      exact Int.tdiv_eq_ediv hm hd
    · simp only [he, hm, if_false]
      have hm' : 0 ≤ -x.man := by omega
      rw [← Int.tdiv_eq_ediv hm' hd, Int.neg_tdiv, neg_neg]

theorem binary64_toInt (x : F64) : binary64.toInt x = F64.toInt x := rfl

/-- Every anchor of `NewMouseMover` is half of a 64-bit integer, so adding an
offset of the pattern to it stays within 64 bits. -/
theorem NewMouseMover_offsets_fit (width height d : Int)
    (hw : -2 ^ 63 ≤ width ∧ width < 2 ^ 63) (hh : -2 ^ 63 ≤ height ∧ height < 2 ^ 63)
    (hd : -250 ≤ d ∧ d ≤ 250) :
    wrapInt64 ((NewMouseMover width height).startX + d) = (NewMouseMover width height).startX + d
      ∧ wrapInt64 ((NewMouseMover width height).startY + d)
          = (NewMouseMover width height).startY + d := by
  have key : ∀ v : Int, -2 ^ 63 ≤ v ∧ v < 2 ^ 63 →
      wrapInt64 (Int.tdiv v 2 + d) = Int.tdiv v 2 + d := by
    intro v hv
    have hb : -2 ^ 62 ≤ Int.tdiv v 2 ∧ Int.tdiv v 2 ≤ 2 ^ 62 := by
      by_cases h0 : 0 ≤ v
      · rw [Int.tdiv_eq_ediv h0 (by decide)]
        omega
      · have h1 : 0 ≤ -v := by omega
        have h2 : Int.tdiv v 2 = -((-v) / 2) := by
          rw [← Int.tdiv_eq_ediv h1 (by decide), Int.neg_tdiv, neg_neg]
        rw [h2]
        omega
    unfold wrapInt64
    omega
  exact ⟨key width hw, key height hh⟩

theorem shaft_inBox (m : MouseMover) : ∀ p ∈ emitted drawShaft m, inBox m p := by
  intro p hp
  rw [emitted_drawShaft] at hp
  obtain ⟨i, hi, rfl⟩ := List.mem_map.mp hp
  have hi' : i < 200 := List.mem_range.mp hi
  unfold inBox
  dsimp only
  omega

theorem head_inBox (m : MouseMover) : ∀ p ∈ emitted (drawHead binary64) m, inBox m p := by
  intro p hp
  rw [emitted_drawHead] at hp
  obtain ⟨d, hd, rfl⟩ := List.mem_map.mp hp
  have hb := headOffsets_binary64_bounds d hd
  unfold inBox shift headCenterY ShaftLength
  dsimp only
  omega

theorem leftBall_inBox (m : MouseMover) :
    ∀ p ∈ emitted (drawLeftBall binary64) m, inBox m p := by
  intro p hp
  rw [emitted_drawLeftBall] at hp
  obtain ⟨d, hd, rfl⟩ := List.mem_map.mp hp
  have hb := ballOffsets_binary64_bounds d hd
  unfold inBox shift leftCenterX leftCenterY BallOffset
  dsimp only
  omega

theorem rightBall_inBox (m : MouseMover) :
    ∀ p ∈ emitted (drawRightBall binary64) m, inBox m p := by
  intro p hp
  rw [emitted_drawRightBall] at hp
  obtain ⟨d, hd, rfl⟩ := List.mem_map.mp hp
  have hb := ballOffsets_binary64_bounds d hd
  unfold inBox shift rightCenterX rightCenterY BallOffset
  dsimp only
  omega

theorem traversal_inBox (m : MouseMover) :
    ∀ p ∈ emitted (ExecutePattern binary64) m, inBox m p := by
  intro p hp
  have hanchor : inBox m (m.startX, m.startY) := by
    unfold inBox
    dsimp only
    omega
  rw [emitted_ExecutePattern, waypoints] at hp
  rcases List.mem_append.mp hp with h | h
  · rcases List.mem_cons.mp h with h | h
    · rw [h]
      exact hanchor
    · rcases List.mem_append.mp h with h | h
      · rcases List.mem_append.mp h with h | h
        · rcases List.mem_append.mp h with h | h
          · exact shaft_inBox m p h
          · exact head_inBox m p h
        · exact leftBall_inBox m p h
      · exact rightBall_inBox m p h
  · rw [List.mem_singleton.mp h]
    exact hanchor

/-! ## The offsets in exact real arithmetic -/

/-- A value between `n` and `n + 1`, for `n ≥ 0`, truncates to `n`. -/
theorem exactTrunc_of_nonneg {x : ℝ} {n : ℤ} (hn : 0 ≤ n) (h1 : (n : ℝ) ≤ x)
    (h2 : x < n + 1) : ExactTrunc x n := by
  have hn' : (0 : ℝ) ≤ n := by exact_mod_cast hn
  refine ⟨fun _ => ⟨h1, h2⟩, fun hx => ⟨by linarith, by linarith⟩⟩

theorem exactTrunc_neg {x : ℝ} {n : ℤ} (h : ExactTrunc x n) : ExactTrunc (-x) (-n) := by
  obtain ⟨hp, hm⟩ := h
  refine ⟨fun hx => ?_, fun hx => ?_⟩
  · obtain ⟨a, b⟩ := hm (by linarith)
    push_cast
    exact ⟨by linarith, by linarith⟩
  · obtain ⟨a, b⟩ := hp (by linarith)
    push_cast
    exact ⟨by linarith, by linarith⟩

/-- A real number has one truncation. -/
theorem exactTrunc_unique {x : ℝ} {n m : ℤ} (hn : ExactTrunc x n) (hm : ExactTrunc x m) :
    n = m := by
  rcases le_total 0 x with hx | hx
  · obtain ⟨a, b⟩ := hn.1 hx
    obtain ⟨c, d⟩ := hm.1 hx
    have h1 : (n : ℝ) < m + 1 := by linarith
    have h2 : (m : ℝ) < n + 1 := by linarith
    have h1' : n < m + 1 := by exact_mod_cast h1
    have h2' : m < n + 1 := by exact_mod_cast h2
    omega
  · obtain ⟨a, b⟩ := hn.2 hx
    obtain ⟨c, d⟩ := hm.2 hx
    have h1 : (n : ℝ) - 1 < m := by linarith
    have h2 : (m : ℝ) - 1 < n := by linarith
    have h1' : n - 1 < m := by exact_mod_cast h1
    have h2' : m - 1 < n := by exact_mod_cast h2
    omega

theorem exactTrunc_floor {x : ℝ} (hx : 0 ≤ x) : ExactTrunc x ⌊x⌋ :=
  exactTrunc_of_nonneg (Int.floor_nonneg.mpr hx) (Int.floor_le x) (Int.lt_floor_add_one x)

theorem ExactOffset.swap {r a p q : ℤ} (h : ExactOffset r a (p, q)) :
    ExactOffset r (90 - a) (q, p) := by
  have e : ((90 - a : ℤ) : ℝ) * Real.pi / 180 = Real.pi / 2 - (a : ℝ) * Real.pi / 180 := by
    push_cast
    ring
  unfold ExactOffset at h ⊢
  rw [e, Real.cos_pi_div_two_sub, Real.sin_pi_div_two_sub]
  exact ⟨h.2, h.1⟩

theorem ExactOffset.reflect {r a p q : ℤ} (h : ExactOffset r a (p, q)) :
    ExactOffset r (180 - a) (-p, q) := by
  have e : ((180 - a : ℤ) : ℝ) * Real.pi / 180 = Real.pi - (a : ℝ) * Real.pi / 180 := by
    push_cast
    ring
  unfold ExactOffset at h ⊢
  rw [e, Real.cos_pi_sub, Real.sin_pi_sub, mul_neg]
  exact ⟨exactTrunc_neg h.1, h.2⟩

theorem ExactOffset.halfTurn {r a p q : ℤ} (h : ExactOffset r a (p, q)) :
    ExactOffset r (a + 180) (-p, -q) := by
  have e : ((a + 180 : ℤ) : ℝ) * Real.pi / 180 = (a : ℝ) * Real.pi / 180 + Real.pi := by
    push_cast
    ring
  unfold ExactOffset at h ⊢
  rw [e, Real.cos_add_pi, Real.sin_add_pi, mul_neg, mul_neg]
  exact ⟨exactTrunc_neg h.1, exactTrunc_neg h.2⟩

theorem TrigBounds.mono {x cl cu sl su cl' cu' sl' su' : ℝ} (h : TrigBounds x cl cu sl su)
    (h1 : cl' ≤ cl) (h2 : cu ≤ cu') (h3 : sl' ≤ sl) (h4 : su ≤ su') :
    TrigBounds x cl' cu' sl' su' :=
  ⟨le_trans h1 h.1, le_trans h.2.1 h2, le_trans h3 h.2.2.1, le_trans h.2.2.2 h4⟩

/-- Bounds at `x + y` from bounds at `x` and at `y`, by the addition
formulas. -/
theorem TrigBounds.add {x y cl1 cu1 sl1 su1 cl2 cu2 sl2 su2 : ℝ}
    (hx : TrigBounds x cl1 cu1 sl1 su1) (hy : TrigBounds y cl2 cu2 sl2 su2)
    (h1 : 0 ≤ cl1) (h2 : 0 ≤ sl1) (h3 : 0 ≤ cl2) (h4 : 0 ≤ sl2) :
    TrigBounds (x + y) (cl1 * cl2 - su1 * su2) (cu1 * cu2 - sl1 * sl2)
      (sl1 * cl2 + cl1 * sl2) (su1 * cu2 + cu1 * su2) := by
  obtain ⟨a1, a2, a3, a4⟩ := hx
  obtain ⟨b1, b2, b3, b4⟩ := hy
  have cx : 0 ≤ Real.cos x := le_trans h1 a1
  have sx : 0 ≤ Real.sin x := le_trans h2 a3
  have cy : 0 ≤ Real.cos y := le_trans h3 b1
  have sy : 0 ≤ Real.sin y := le_trans h4 b3
  have m1 : cl1 * cl2 ≤ Real.cos x * Real.cos y := mul_le_mul a1 b1 h3 cx
  have m2 : Real.cos x * Real.cos y ≤ cu1 * cu2 := mul_le_mul a2 b2 cy (le_trans cx a2)
  have m3 : sl1 * sl2 ≤ Real.sin x * Real.sin y := mul_le_mul a3 b3 h4 sx
  have m4 : Real.sin x * Real.sin y ≤ su1 * su2 := mul_le_mul a4 b4 sy (le_trans sx a4)
  have m5 : sl1 * cl2 ≤ Real.sin x * Real.cos y := mul_le_mul a3 b1 h3 sx
  have m6 : Real.sin x * Real.cos y ≤ su1 * cu2 := mul_le_mul a4 b2 cy (le_trans sx a4)
  have m7 : cl1 * sl2 ≤ Real.cos x * Real.sin y := mul_le_mul a1 b3 h4 cx
  have m8 : Real.cos x * Real.sin y ≤ cu1 * su2 := mul_le_mul a2 b4 sy (le_trans cx a2)
  unfold TrigBounds
  rw [Real.cos_add, Real.sin_add]
  exact ⟨by linarith, by linarith, by linarith, by linarith⟩

theorem exactOffset_of_bounds {r a p q : ℤ} {cl cu sl su : ℝ}
    (h : TrigBounds ((a : ℝ) * Real.pi / 180) cl cu sl su)
    (hr : 0 ≤ r) (hp : 0 ≤ p) (hq : 0 ≤ q)
    (h1 : (p : ℝ) ≤ r * cl) (h2 : (r : ℝ) * cu < p + 1)
    (h3 : (q : ℝ) ≤ r * sl) (h4 : (r : ℝ) * su < q + 1) :
    ExactOffset r a (p, q) := by
  have hr' : (0 : ℝ) ≤ r := by exact_mod_cast hr
  obtain ⟨a1, a2, a3, a4⟩ := h
  refine ⟨exactTrunc_of_nonneg hp ?_ ?_, exactTrunc_of_nonneg hq ?_ ?_⟩
  · exact le_trans h1 (mul_le_mul_of_nonneg_left a1 hr')
  · exact lt_of_le_of_lt (mul_le_mul_of_nonneg_left a2 hr') h2
  · exact le_trans h3 (mul_le_mul_of_nonneg_left a3 hr')
  · exact lt_of_le_of_lt (mul_le_mul_of_nonneg_left a4 hr') h4

/-- The angle of 5 degrees, from the bounds `3.141592 < π < 3.141593` and the
Taylor bounds of the cosine and the sine. -/
theorem trigBounds_5 :
    TrigBounds (((5 : ℤ) : ℝ) * Real.pi / 180) (996189260 / 1000000000) (996195305 / 1000000000)
      (87152661 / 1000000000) (87158731 / 1000000000) := by
  have hpl := Real.pi_gt_d6
  have hpu := Real.pi_lt_d6
  have hx0 : (0 : ℝ) ≤ 3141592 / 36000000 := by norm_num
  have hxl : (3141592 / 36000000 : ℝ) ≤ ((5 : ℤ) : ℝ) * Real.pi / 180 := by
    push_cast
    linarith
  have hxu : ((5 : ℤ) : ℝ) * Real.pi / 180 ≤ 3141593 / 36000000 := by
    push_cast
    linarith
  generalize ((5 : ℤ) : ℝ) * Real.pi / 180 = x at hxl hxu ⊢
  have hx : 0 ≤ x := le_trans hx0 hxl
  have habs : |x| ≤ 1 := by
    rw [abs_of_nonneg hx]
    linarith
  have hc := abs_le.mp (Real.cos_bound habs)
  have hs := abs_le.mp (Real.sin_bound habs)
  rw [abs_of_nonneg hx] at hc hs
  have l2 : (3141592 / 36000000 : ℝ) ^ 2 ≤ x ^ 2 := pow_le_pow_left₀ hx0 hxl 2
  have l3 : (3141592 / 36000000 : ℝ) ^ 3 ≤ x ^ 3 := pow_le_pow_left₀ hx0 hxl 3
  have u2 : x ^ 2 ≤ (3141593 / 36000000 : ℝ) ^ 2 := pow_le_pow_left₀ hx hxu 2
  have u3 : x ^ 3 ≤ (3141593 / 36000000 : ℝ) ^ 3 := pow_le_pow_left₀ hx hxu 3
  have u4 : x ^ 4 ≤ (3141593 / 36000000 : ℝ) ^ 4 := pow_le_pow_left₀ hx hxu 4
  norm_num at l2 l3 u2 u3 u4
  refine ⟨?_, ?_, ?_, ?_⟩
  · linarith [hc.1]
  · linarith [hc.2]
  · linarith [hs.1]
  · linarith [hs.2]

theorem trigBounds_10 :
    TrigBounds ((((10 : ℤ) : ℝ)) * Real.pi / 180) (984796397 / 1000000000) (984809500 / 1000000000)
      (173641089 / 1000000000) (173654238 / 1000000000) := by
  have e : (((10 : ℤ) : ℝ)) * Real.pi / 180
      = ((5 : ℤ) : ℝ) * Real.pi / 180 + ((5 : ℤ) : ℝ) * Real.pi / 180 := by
    push_cast
    ring
  rw [e]
  exact (TrigBounds.add trigBounds_5 trigBounds_5 (by norm_num) (by norm_num)
    (by norm_num) (by norm_num)).mono (by norm_num) (by norm_num) (by norm_num) (by norm_num)

theorem trigBounds_15 :
    TrigBounds ((((15 : ℤ) : ℝ)) * Real.pi / 180) (965908110 / 1000000000) (965929318 / 1000000000)
      (258807014 / 1000000000) (258828283 / 1000000000) := by
  have e : (((15 : ℤ) : ℝ)) * Real.pi / 180
      = ((10 : ℤ) : ℝ) * Real.pi / 180 + ((5 : ℤ) : ℝ) * Real.pi / 180 := by
    push_cast
    ring
  rw [e]
  exact (TrigBounds.add trigBounds_10 trigBounds_5 (by norm_num) (by norm_num)
    (by norm_num) (by norm_num)).mono (by norm_num) (by norm_num) (by norm_num) (by norm_num)

theorem trigBounds_20 :
    TrigBounds ((((20 : ℤ) : ℝ)) * Real.pi / 180) (939668140 / 1000000000) (939698532 / 1000000000)
      (342002229 / 1000000000) (342032694 / 1000000000) := by
  have e : (((20 : ℤ) : ℝ)) * Real.pi / 180
      = ((15 : ℤ) : ℝ) * Real.pi / 180 + ((5 : ℤ) : ℝ) * Real.pi / 180 := by
    push_cast
    ring
  rw [e]
  exact (TrigBounds.add trigBounds_15 trigBounds_5 (by norm_num) (by norm_num)
    (by norm_num) (by norm_num)).mono (by norm_num) (by norm_num) (by norm_num) (by norm_num)

theorem trigBounds_25 :
    TrigBounds ((((25 : ℤ) : ℝ)) * Real.pi / 180) (906276173 / 1000000000) (906316862 / 1000000000)
      (422593526 / 1000000000) (422634296 / 1000000000) := by
  have e : (((25 : ℤ) : ℝ)) * Real.pi / 180
      = ((20 : ℤ) : ℝ) * Real.pi / 180 + ((5 : ℤ) : ℝ) * Real.pi / 180 := by
    push_cast
    ring
  rw [e]
  exact (TrigBounds.add trigBounds_20 trigBounds_5 (by norm_num) (by norm_num)
    (by norm_num) (by norm_num)).mono (by norm_num) (by norm_num) (by norm_num) (by norm_num)

theorem trigBounds_30 :
    TrigBounds ((((30 : ℤ) : ℝ)) * Real.pi / 180) (865986321 / 1000000000) (866038453 / 1000000000)
      (499967512 / 1000000000) (500019729 / 1000000000) := by
  have e : (((30 : ℤ) : ℝ)) * Real.pi / 180
      = ((25 : ℤ) : ℝ) * Real.pi / 180 + ((5 : ℤ) : ℝ) * Real.pi / 180 := by
    push_cast
    ring
  rw [e]
  exact (TrigBounds.add trigBounds_25 trigBounds_5 (by norm_num) (by norm_num)
    (by norm_num) (by norm_num)).mono (by norm_num) (by norm_num) (by norm_num) (by norm_num)

theorem trigBounds_35 :
    TrigBounds ((((35 : ℤ) : ℝ)) * Real.pi / 180) (819105187 / 1000000000) (819169942 / 1000000000)
      (573535278 / 1000000000) (573600119 / 1000000000) := by
  have e : (((35 : ℤ) : ℝ)) * Real.pi / 180
      = ((30 : ℤ) : ℝ) * Real.pi / 180 + ((5 : ℤ) : ℝ) * Real.pi / 180 := by
    push_cast
    ring
  rw [e]
  exact (TrigBounds.add trigBounds_30 trigBounds_5 (by norm_num) (by norm_num)
    (by norm_num) (by norm_num)).mono (by norm_num) (by norm_num) (by norm_num) (by norm_num)

theorem trigBounds_40 :
    TrigBounds ((((40 : ℤ) : ℝ)) * Real.pi / 180) (765989531 / 1000000000) (766068125 / 1000000000)
      (642736880 / 1000000000) (642815559 / 1000000000) := by
  have e : (((40 : ℤ) : ℝ)) * Real.pi / 180
      = ((35 : ℤ) : ℝ) * Real.pi / 180 + ((5 : ℤ) : ℝ) * Real.pi / 180 := by
    push_cast
    ring
  rw [e]
  exact (TrigBounds.add trigBounds_35 trigBounds_5 (by norm_num) (by norm_num)
    (by norm_num) (by norm_num)).mono (by norm_num) (by norm_num) (by norm_num) (by norm_num)

theorem trigBounds_45 :
    TrigBounds ((((45 : ℤ) : ℝ)) * Real.pi / 180) (707043555 / 1000000000) (707137241 / 1000000000)
      (707045602 / 1000000000) (707139368 / 1000000000) := by
  have e : (((45 : ℤ) : ℝ)) * Real.pi / 180
      = ((40 : ℤ) : ℝ) * Real.pi / 180 + ((5 : ℤ) : ℝ) * Real.pi / 180 := by
    push_cast
    ring
  rw [e]
  exact (TrigBounds.add trigBounds_40 trigBounds_5 (by norm_num) (by norm_num)
    (by norm_num) (by norm_num)).mono (by norm_num) (by norm_num) (by norm_num) (by norm_num)

theorem exactOffset_zero (r : ℤ) (hr : 0 ≤ r) : ExactOffset r 0 (r, 0) := by
  unfold ExactOffset
  rw [Int.cast_zero, zero_mul, zero_div, Real.cos_zero, Real.sin_zero, mul_one, mul_zero]
  refine ⟨exactTrunc_of_nonneg hr (le_refl _) (by linarith), ?_⟩
  exact exactTrunc_of_nonneg (le_refl _) (by norm_num) (by norm_num)

/-- At 30 degrees the sine is exactly one half. -/
theorem trigBounds_30_exact :
    TrigBounds (((30 : ℤ) : ℝ) * Real.pi / 180) (865986321 / 1000000000) (866038453 / 1000000000)
      (1 / 2) (1 / 2) := by
  have e : ((30 : ℤ) : ℝ) * Real.pi / 180 = Real.pi / 6 := by
    push_cast
    ring
  have h := trigBounds_30
  have hs : Real.sin (((30 : ℤ) : ℝ) * Real.pi / 180) = 1 / 2 := by
    rw [e, Real.sin_pi_div_six]
  exact ⟨h.1, h.2.1, le_of_eq hs.symm, le_of_eq hs⟩

theorem exactOffset_50_5 : ExactOffset 50 5 (49, 4) :=
  exactOffset_of_bounds trigBounds_5 (by decide) (by decide) (by decide)
    (by norm_num) (by norm_num) (by norm_num) (by norm_num)

theorem exactOffset_50_10 : ExactOffset 50 10 (49, 8) :=
  exactOffset_of_bounds trigBounds_10 (by decide) (by decide) (by decide)
    (by norm_num) (by norm_num) (by norm_num) (by norm_num)

theorem exactOffset_50_15 : ExactOffset 50 15 (48, 12) :=
  exactOffset_of_bounds trigBounds_15 (by decide) (by decide) (by decide)
    (by norm_num) (by norm_num) (by norm_num) (by norm_num)

theorem exactOffset_50_20 : ExactOffset 50 20 (46, 17) :=
  exactOffset_of_bounds trigBounds_20 (by decide) (by decide) (by decide)
    (by norm_num) (by norm_num) (by norm_num) (by norm_num)

theorem exactOffset_50_25 : ExactOffset 50 25 (45, 21) :=
  exactOffset_of_bounds trigBounds_25 (by decide) (by decide) (by decide)
    (by norm_num) (by norm_num) (by norm_num) (by norm_num)

theorem exactOffset_50_30 : ExactOffset 50 30 (43, 25) :=
  exactOffset_of_bounds trigBounds_30_exact (by decide) (by decide) (by decide)
    (by norm_num) (by norm_num) (by norm_num) (by norm_num)

theorem exactOffset_50_35 : ExactOffset 50 35 (40, 28) :=
  exactOffset_of_bounds trigBounds_35 (by decide) (by decide) (by decide)
    (by norm_num) (by norm_num) (by norm_num) (by norm_num)

theorem exactOffset_50_40 : ExactOffset 50 40 (38, 32) :=
  exactOffset_of_bounds trigBounds_40 (by decide) (by decide) (by decide)
    (by norm_num) (by norm_num) (by norm_num) (by norm_num)

theorem exactOffset_50_45 : ExactOffset 50 45 (35, 35) :=
  exactOffset_of_bounds trigBounds_45 (by decide) (by decide) (by decide)
    (by norm_num) (by norm_num) (by norm_num) (by norm_num)

theorem exactOffset_30_10 : ExactOffset 30 10 (29, 5) :=
  exactOffset_of_bounds trigBounds_10 (by decide) (by decide) (by decide)
    (by norm_num) (by norm_num) (by norm_num) (by norm_num)

theorem exactOffset_30_20 : ExactOffset 30 20 (28, 10) :=
  exactOffset_of_bounds trigBounds_20 (by decide) (by decide) (by decide)
    (by norm_num) (by norm_num) (by norm_num) (by norm_num)

theorem exactOffset_30_30 : ExactOffset 30 30 (25, 15) :=
  exactOffset_of_bounds trigBounds_30_exact (by decide) (by decide) (by decide)
    (by norm_num) (by norm_num) (by norm_num) (by norm_num)

theorem exactOffset_30_40 : ExactOffset 30 40 (22, 19) :=
  exactOffset_of_bounds trigBounds_40 (by decide) (by decide) (by decide)
    (by norm_num) (by norm_num) (by norm_num) (by norm_num)

/-- Every entry of `headExact` is the pair of truncations of the exact products at
its angle. -/
theorem headExact_spec :
    ∀ k : Nat, k < 37 → ExactOffset HeadRadius (5 * (k : Int)) (headExact.getD k (0, 0)) := by
  intro k hk
  interval_cases k
  · exact exactOffset_zero 50 (by decide)
  · exact exactOffset_50_5
  · exact exactOffset_50_10
  · exact exactOffset_50_15
  · exact exactOffset_50_20
  · exact exactOffset_50_25
  · exact exactOffset_50_30
  · exact exactOffset_50_35
  · exact exactOffset_50_40
  · exact exactOffset_50_45
  · exact (exactOffset_50_40).swap
  · exact (exactOffset_50_35).swap
  · exact (exactOffset_50_30).swap
  · exact (exactOffset_50_25).swap
  · exact (exactOffset_50_20).swap
  · exact (exactOffset_50_15).swap
  · exact (exactOffset_50_10).swap
  · exact (exactOffset_50_5).swap
  · exact (exactOffset_zero 50 (by decide)).swap
  · exact ((exactOffset_50_5).swap).reflect
  · exact ((exactOffset_50_10).swap).reflect
  · exact ((exactOffset_50_15).swap).reflect
  · exact ((exactOffset_50_20).swap).reflect
  · exact ((exactOffset_50_25).swap).reflect
  · exact ((exactOffset_50_30).swap).reflect
  · exact ((exactOffset_50_35).swap).reflect
  · exact ((exactOffset_50_40).swap).reflect
  · exact (exactOffset_50_45).reflect
  · exact (exactOffset_50_40).reflect
  · exact (exactOffset_50_35).reflect
  · exact (exactOffset_50_30).reflect
  · exact (exactOffset_50_25).reflect
  · exact (exactOffset_50_20).reflect
  · exact (exactOffset_50_15).reflect
  · exact (exactOffset_50_10).reflect
  · exact (exactOffset_50_5).reflect
  · exact (exactOffset_zero 50 (by decide)).reflect

/-- Every entry of `ballExact` is the pair of truncations of the exact products at
its angle. -/
theorem ballExact_spec :
    ∀ k : Nat, k < 37 → ExactOffset BallRadius (10 * (k : Int)) (ballExact.getD k (0, 0)) := by
  intro k hk
  interval_cases k
  · exact exactOffset_zero 30 (by decide)
  · exact exactOffset_30_10
  · exact exactOffset_30_20
  · exact exactOffset_30_30
  · exact exactOffset_30_40
  · exact (exactOffset_30_40).swap
  · exact (exactOffset_30_30).swap
  · exact (exactOffset_30_20).swap
  · exact (exactOffset_30_10).swap
  · exact (exactOffset_zero 30 (by decide)).swap
  · exact ((exactOffset_30_10).swap).reflect
  · exact ((exactOffset_30_20).swap).reflect
  · exact ((exactOffset_30_30).swap).reflect
  · exact ((exactOffset_30_40).swap).reflect
  · exact (exactOffset_30_40).reflect
  · exact (exactOffset_30_30).reflect
  · exact (exactOffset_30_20).reflect
  · exact (exactOffset_30_10).reflect
  · exact (exactOffset_zero 30 (by decide)).reflect
  · exact (exactOffset_30_10).halfTurn
  · exact (exactOffset_30_20).halfTurn
  · exact (exactOffset_30_30).halfTurn
  · exact (exactOffset_30_40).halfTurn
  · exact ((exactOffset_30_40).swap).halfTurn
  · exact ((exactOffset_30_30).swap).halfTurn
  · exact ((exactOffset_30_20).swap).halfTurn
  · exact ((exactOffset_30_10).swap).halfTurn
  · exact ((exactOffset_zero 30 (by decide)).swap).halfTurn
  · exact (((exactOffset_30_10).swap).reflect).halfTurn
  · exact (((exactOffset_30_20).swap).reflect).halfTurn
  · exact (((exactOffset_30_30).swap).reflect).halfTurn
  · exact (((exactOffset_30_40).swap).reflect).halfTurn
  · exact ((exactOffset_30_40).reflect).halfTurn
  · exact ((exactOffset_30_30).reflect).halfTurn
  · exact ((exactOffset_30_20).reflect).halfTurn
  · exact ((exactOffset_30_10).reflect).halfTurn
  · exact ((exactOffset_zero 30 (by decide)).reflect).halfTurn

/-! ## The claims -/

/-- C1, amended.  One traversal hands 313 positions to the cursor: first the
anchor, then the 311 waypoints of the four phases in their fixed order (the
200 shaft points, the 37 head points for the angles 0, 5, ..., 180, the 37
points of the left ball and the 37 points of the right ball for the angles
0, 10, ..., 360), and last the anchor again. -/
theorem ExecutePattern_emits_four_phases (E : FloatEnv) (s : State) :
    (ExecutePattern E s).moves
        = s.moves ++ ((s.mover.startX, s.mover.startY) :: waypoints E s.mover
            ++ [(s.mover.startX, s.mover.startY)])
      ∧ waypoints E s.mover
        = emitted drawShaft s.mover ++ emitted (drawHead E) s.mover
            ++ emitted (drawLeftBall E) s.mover ++ emitted (drawRightBall E) s.mover
      ∧ (drawBalls E (drawHead E (drawShaft s))).moves = s.moves ++ waypoints E s.mover
      ∧ emitted drawShaft s.mover
        = (List.range 200).map (fun i : Nat => (s.mover.startX, s.mover.startY + (i : Int)))
      ∧ emitted (drawHead E) s.mover
        = (List.range 37).map (fun k : Nat =>
            (s.mover.startX + cosOffset E HeadRadius (5 * k),
             s.mover.startY + ShaftLength + sinOffset E HeadRadius (5 * k)))
      ∧ emitted (drawLeftBall E) s.mover
        = (List.range 37).map (fun k : Nat =>
            (s.mover.startX - BallOffset + cosOffset E BallRadius (10 * k),
             s.mover.startY - 20 + sinOffset E BallRadius (10 * k)))
      ∧ emitted (drawRightBall E) s.mover
        = (List.range 37).map (fun k : Nat =>
            (s.mover.startX + BallOffset + cosOffset E BallRadius (10 * k),
             s.mover.startY - 20 + sinOffset E BallRadius (10 * k)))
      ∧ (emitted drawShaft s.mover).length = 200
      ∧ (emitted (drawHead E) s.mover).length = 37
      ∧ (emitted (drawLeftBall E) s.mover).length = 37
      ∧ (emitted (drawRightBall E) s.mover).length = 37
      ∧ (waypoints E s.mover).length = 311
      ∧ (emitted (ExecutePattern E) s.mover).length = 313 := by
  refine ⟨?_, rfl, ?_, emitted_drawShaft _, ?_, ?_, ?_, ?_, ?_, ?_, ?_,
    length_waypoints E _, length_emitted_ExecutePattern E _⟩
  · rw [ExecutePattern_eq]
  · rw [drawShaft_eq, drawHead_eq, drawBalls_eq, waypoints, emitted_drawShaft,
      emitted_drawHead, emitted_drawLeftBall, emitted_drawRightBall]
    simp only [List.append_assoc]
  · rw [emitted_drawHead, headOffsets_map_shift]
    rfl
  · rw [emitted_drawLeftBall, ballOffsets_map_shift]
    rfl
  · rw [emitted_drawRightBall, ballOffsets_map_shift]
    rfl
  · rw [emitted_drawShaft, List.length_map, List.length_range]
  · rw [emitted_drawHead, List.length_map, length_headOffsets]
  · rw [emitted_drawLeftBall, List.length_map, length_ballOffsets]
  · rw [emitted_drawRightBall, List.length_map, length_ballOffsets]

/-- C1 as stated fails: at the anchor (960, 540) the traversal hands 313
positions to the cursor, not 311, and it begins with a move to the anchor that
is none of the four phases. -/
theorem ExecutePattern_emits_313_not_311 :
    (emitted (ExecutePattern binary64) (NewMouseMover 1920 1080)).length = 313
      ∧ ¬ (emitted (ExecutePattern binary64) (NewMouseMover 1920 1080)).length = 311
      ∧ emitted (ExecutePattern binary64) (NewMouseMover 1920 1080)
          ≠ waypoints binary64 (NewMouseMover 1920 1080) := by
  have h := length_emitted_ExecutePattern binary64 (NewMouseMover 1920 1080)
  have hw := length_waypoints binary64 (NewMouseMover 1920 1080)
  refine ⟨h, ?_, ?_⟩
  · rw [h]
    decide
  · intro he
    rw [he, hw] at h
    exact absurd h (by decide)

/-- C2.  `drawShaft` appends exactly the 200 points `(x0, y0 + i)`,
`i = 0, ..., 199`, in this order; for the anchor (960, 540) the first is
(960, 540) and the last is (960, 739). -/
theorem drawShaft_points (s : State) :
    (drawShaft s).moves
        = s.moves ++ (List.range 200).map
            (fun i : Nat => (s.mover.startX, s.mover.startY + (i : Int)))
      ∧ (∀ i : Nat, (i : Int) < ShaftLength →
          (emitted drawShaft s.mover)[i]? = some (s.mover.startX, s.mover.startY + (i : Int)))
      ∧ (emitted drawShaft s.mover).length = 200
      ∧ (∀ w h : Int,
          (emitted drawShaft ⟨w, h, 960, 540⟩)[0]? = some (960, 540)
            ∧ (emitted drawShaft ⟨w, h, 960, 540⟩)[199]? = some (960, 739)
            ∧ (emitted drawShaft ⟨w, h, 960, 540⟩).getLast? = some (960, 739)) := by
  refine ⟨?_, ?_, ?_, ?_⟩
  · rw [drawShaft_eq]
  · intro i hi
    have hi' : i < 200 := by
      have : (i : Int) < 200 := hi
      omega
    rw [emitted_drawShaft]
    simp [List.getElem?_range, hi']
  · rw [emitted_drawShaft, List.length_map, List.length_range]
  · intro w h
    rw [emitted_drawShaft]
    refine ⟨?_, ?_, ?_⟩
    · simp [List.getElem?_range]
    · simp [List.getElem?_range]
    · rw [List.range_succ]
      simp

/-- The shaft of the anchor (960, 540) at its last step, `i = 199`. -/
theorem drawShaft_points_witness :
    ((199 : Nat) : Int) < ShaftLength
      ∧ (emitted drawShaft (NewMouseMover 1920 1080))[199]? = some (960, 540 + 199) :=
  ⟨by decide,
    (drawShaft_points ⟨NewMouseMover 1920 1080, [], none⟩).2.1 199 (by decide)⟩

theorem waypoints_screen (E : FloatEnv) (m : MouseMover) (w h : Int) :
    waypoints E { m with screenWidth := w, screenHeight := h } = waypoints E m := by
  rw [waypoints, waypoints, emitted_drawShaft, emitted_drawHead, emitted_drawLeftBall,
    emitted_drawRightBall, emitted_drawShaft, emitted_drawHead, emitted_drawLeftBall,
    emitted_drawRightBall]
  rfl

/-- C7.  A traversal leaves the receiver (anchor and screen size) and the
ticker as they were and only appends to the log; what it appends depends on the
anchor alone, so a second traversal appends the same sequence again, point for
point. -/
theorem ExecutePattern_restartable (E : FloatEnv) (s : State) :
    (ExecutePattern E s).mover = s.mover
      ∧ (ExecutePattern E s).ticker = s.ticker
      ∧ (ExecutePattern E s).moves = s.moves ++ emitted (ExecutePattern E) s.mover
      ∧ (ExecutePattern E (ExecutePattern E s)).moves
          = s.moves ++ emitted (ExecutePattern E) s.mover ++ emitted (ExecutePattern E) s.mover
      ∧ (∀ w h : Int,
          emitted (ExecutePattern E) { s.mover with screenWidth := w, screenHeight := h }
            = emitted (ExecutePattern E) s.mover) := by
  have h1 : (ExecutePattern E s).mover = s.mover := by rw [ExecutePattern_eq]
  have h3 : ∀ t : State, (ExecutePattern E t).moves = t.moves ++ emitted (ExecutePattern E) t.mover := by
    intro t
    rw [ExecutePattern_eq, emitted_ExecutePattern]
  refine ⟨h1, ?_, h3 s, ?_, ?_⟩
  · rw [ExecutePattern_eq]
  · rw [h3 (ExecutePattern E s), h1, h3 s]
  · intro w h
    rw [emitted_ExecutePattern, emitted_ExecutePattern, waypoints_screen]

/-- C8.  The two loops of `drawBalls` add the same offsets to the centers
`(x0 - BallOffset, y0 - 20)` and `(x0 + BallOffset, y0 - 20)`; the centers
have the same height and their abscissas add up to `2 * x0`. -/
theorem ball_centers_symmetric (E : FloatEnv) (m : MouseMover) :
    emitted (drawLeftBall E) m
        = (ballOffsets E).map (shift (m.startX - BallOffset, m.startY - 20))
      ∧ emitted (drawRightBall E) m
        = (ballOffsets E).map (shift (m.startX + BallOffset, m.startY - 20))
      ∧ emitted (drawBalls E) m = emitted (drawLeftBall E) m ++ emitted (drawRightBall E) m
      ∧ leftCenterX m = m.startX - BallOffset
      ∧ rightCenterX m = m.startX + BallOffset
      ∧ leftCenterY m = m.startY - 20
      ∧ rightCenterY m = m.startY - 20
      ∧ leftCenterX m + rightCenterX m = 2 * m.startX
      ∧ leftCenterY m = rightCenterY m := by
  refine ⟨emitted_drawLeftBall E m, emitted_drawRightBall E m, emitted_drawBalls E m,
    rfl, rfl, rfl, rfl, ?_, rfl⟩
  unfold leftCenterX rightCenterX
  ring

/-- C9.  What a traversal appends is the anchor followed by the four phases
followed by the anchor: the last move goes to `(x0, y0)` and every waypoint of
the four phases comes before it.  The move that opens the traversal goes to
the first waypoint of the shaft, which is the anchor as well. -/
theorem ExecutePattern_returns_to_anchor (E : FloatEnv) (s : State) :
    (ExecutePattern E s).moves
        = (s.moves ++ (s.mover.startX, s.mover.startY) :: waypoints E s.mover)
            ++ [(s.mover.startX, s.mover.startY)]
      ∧ (ExecutePattern E s).moves.getLast? = some (s.mover.startX, s.mover.startY)
      ∧ (emitted (ExecutePattern E) s.mover)[312]? = some (s.mover.startX, s.mover.startY)
      ∧ (∀ i : Nat, i < 311 →
          (emitted (ExecutePattern E) s.mover)[i + 1]? = (waypoints E s.mover)[i]?)
      ∧ (waypoints E s.mover).length = 311
      ∧ (waypoints E s.mover).head? = some (s.mover.startX, s.mover.startY) := by
  have h0 : (ExecutePattern E s).moves
      = (s.moves ++ (s.mover.startX, s.mover.startY) :: waypoints E s.mover)
          ++ [(s.mover.startX, s.mover.startY)] := by
    rw [ExecutePattern_eq]
    exact (List.append_assoc _ _ _).symm
  have hl := length_waypoints E s.mover
  refine ⟨h0, ?_, ?_, ?_, hl, head_waypoints E s.mover⟩
  · rw [h0, List.getLast?_append]
    rfl
  · rw [emitted_ExecutePattern, List.cons_append, List.getElem?_cons_succ,
      List.getElem?_append_right (by rw [hl]), hl]
    rfl
  · intro i hi
    rw [emitted_ExecutePattern, List.cons_append, List.getElem?_cons_succ,
      List.getElem?_append_left (by rw [hl]; exact hi)]

/-- The return to the anchor comes after the last waypoint of the right ball
(index 310 of the four phases, index 311 of the traversal). -/
theorem ExecutePattern_returns_to_anchor_witness :
    310 < 311
      ∧ (emitted (ExecutePattern binary64) (NewMouseMover 1920 1080))[310 + 1]?
          = (waypoints binary64 (NewMouseMover 1920 1080))[310]? :=
  ⟨by decide,
    (ExecutePattern_returns_to_anchor binary64 ⟨NewMouseMover 1920 1080, [], none⟩).2.2.2.1
      310 (by decide)⟩

/-- C5.  With `once` as first argument `main` runs `ExecutePattern` once and
returns: the log is one traversal, no ticker is created, and the events play no
part.  With any other first argument, or none, `main` is `KeepActive` with
`intervalMinutes = 3`, whose ticker has a period of 3 minutes. -/
theorem main_dispatch (E : FloatEnv) (w h : Int) (events : List Event) :
    (∀ (prog : String) (rest : List String),
        main E (prog :: "once" :: rest) w h events
          = some (Phase.STOPPED,
              { mover := NewMouseMover w h
                moves := emitted (ExecutePattern E) (NewMouseMover w h)
                ticker := none }))
      ∧ (∀ args : List String, args[1]? ≠ some "once" →
          main E args w h events
            = KeepActive E 3 events { mover := NewMouseMover w h, moves := [], ticker := none })
      ∧ (∀ args : List String, args[1]? ≠ some "once" →
          main E args w h events
            = some (if Event.signal ∈ events then Phase.STOPPED else Phase.RUNNING,
                { mover := NewMouseMover w h
                  moves := (List.replicate (1 + ticksBeforeSignal events)
                    (emitted (ExecutePattern E) (NewMouseMover w h))).flatten
                  ticker := some ⟨3 * Minute, decide (Event.signal ∈ events)⟩ }))
      ∧ tickerPeriod 3 = 3 * Minute := by
  have hmain : ∀ args : List String, args[1]? ≠ some "once" →
      main E args w h events
        = KeepActive E 3 events { mover := NewMouseMover w h, moves := [], ticker := none } := by
    intro args hargs
    rw [main_def, if_neg (fun hc => hargs hc.2)]
  refine ⟨?_, hmain, ?_, by decide⟩
  · intro prog rest
    rw [main_def, if_pos ⟨by simp, by simp⟩, ExecutePattern_mk, List.nil_append]
  · intro args hargs
    rw [hmain args hargs, KeepActive_eq E 3 (by decide), List.nil_append,
      show tickerPeriod 3 = 3 * Minute from by decide]

/-- The program started without arguments and the program started with the
argument `loop`: both run the scheduler with a period of 3 minutes. -/
theorem main_dispatch_witness :
    (["mouse-mover"][1]? ≠ some "once"
        ∧ main binary64 ["mouse-mover"] 1920 1080 [Event.tick, Event.signal]
          = KeepActive binary64 3 [Event.tick, Event.signal]
              { mover := NewMouseMover 1920 1080, moves := [], ticker := none })
      ∧ (["mouse-mover", "loop"][1]? ≠ some "once"
        ∧ main binary64 ["mouse-mover", "loop"] 1920 1080 [Event.tick, Event.signal]
          = KeepActive binary64 3 [Event.tick, Event.signal]
              { mover := NewMouseMover 1920 1080, moves := [], ticker := none }) :=
  ⟨⟨by decide,
      (main_dispatch binary64 1920 1080 [Event.tick, Event.signal]).2.1 ["mouse-mover"]
        (by decide)⟩,
    ⟨by decide,
      (main_dispatch binary64 1920 1080 [Event.tick, Event.signal]).2.1
        ["mouse-mover", "loop"] (by decide)⟩⟩

/-- C6.  Started with a period that `time.NewTicker` accepts, `KeepActive`
runs one traversal at once and one more for every tick it receives before the
first signal; the first signal stops it, and whatever arrives after that
signal changes nothing.  So the log grows by `1 + ticksBeforeSignal events`
traversals, and the scheduler is `STOPPED` exactly when a signal has
arrived. -/
theorem KeepActive_traversals (E : FloatEnv) (n : Int) (hn : 0 < tickerPeriod n)
    (events : List Event) (s : State) :
    (∃ (ph : Phase) (s' : State),
        KeepActive E n events s = some (ph, s')
          ∧ s'.mover = s.mover
          ∧ s'.moves = s.moves ++ (List.replicate (1 + ticksBeforeSignal events)
              (emitted (ExecutePattern E) s.mover)).flatten
          ∧ s'.moves.length = s.moves.length + (1 + ticksBeforeSignal events) * 313
          ∧ (ph = Phase.STOPPED ↔ Event.signal ∈ events)
          ∧ (ph = Phase.RUNNING ↔ Event.signal ∉ events))
      ∧ KeepActive E n [] s = some (Phase.RUNNING, ExecutePattern E
          { s with ticker := some ⟨tickerPeriod n, false⟩ })
      ∧ (∀ later : List Event, Event.signal ∈ events →
          KeepActive E n (events ++ later) s = KeepActive E n events s) := by
  refine ⟨⟨_, _, KeepActive_eq E n hn events s, rfl, rfl, ?_, ?_, ?_⟩, ?_, ?_⟩
  · simp only [List.length_append, List.length_flatten, List.map_replicate,
      List.sum_replicate, length_emitted_ExecutePattern, smul_eq_mul]
  · by_cases hsig : Event.signal ∈ events <;> simp [hsig]
  · by_cases hsig : Event.signal ∈ events <;> simp [hsig]
  · rw [KeepActive_def, if_neg (not_le.mpr hn)]
    rfl
  · intro later hsig
    rw [KeepActive_eq E n hn, KeepActive_eq E n hn,
      ticksBeforeSignal_append_of_mem events later hsig]
    simp [hsig]

/-- The scheduler as `main` starts it (3 minutes), receiving two ticks, a
signal and one more tick. -/
theorem KeepActive_traversals_witness :
    0 < tickerPeriod 3
      ∧ ∃ (ph : Phase) (s' : State),
        KeepActive binary64 3 [Event.tick, Event.tick, Event.signal, Event.tick]
            { mover := NewMouseMover 1920 1080, moves := [], ticker := none }
          = some (ph, s')
          ∧ s'.mover = NewMouseMover 1920 1080
          ∧ s'.moves = [] ++ (List.replicate
              (1 + ticksBeforeSignal [Event.tick, Event.tick, Event.signal, Event.tick])
              (emitted (ExecutePattern binary64) (NewMouseMover 1920 1080))).flatten
          ∧ s'.moves.length = ([] : List (Int × Int)).length
              + (1 + ticksBeforeSignal [Event.tick, Event.tick, Event.signal, Event.tick]) * 313
          ∧ (ph = Phase.STOPPED
              ↔ Event.signal ∈ [Event.tick, Event.tick, Event.signal, Event.tick])
          ∧ (ph = Phase.RUNNING
              ↔ Event.signal ∉ [Event.tick, Event.tick, Event.signal, Event.tick]) :=
  ⟨by decide,
    (KeepActive_traversals binary64 3 (by decide)
      [Event.tick, Event.tick, Event.signal, Event.tick]
      { mover := NewMouseMover 1920 1080, moves := [], ticker := none }).1⟩

/-- C3, amended.  The `k`-th point of the head is the center
`(x0, y0 + ShaftLength)` plus the pair `int(50 * cos)`, `int(50 * sin)` at the
angle `5 * k` degrees, and the `k`-th point of a ball is its center plus the
pair `int(30 * cos)`, `int(30 * sin)` at `10 * k` degrees, where the products
are the `float64` products of the source and `int(...)` is truncation toward
zero: (49, 4) at 5 degrees, where rounding would give 50, and (-49, 4) at 175
degrees, where the floor would give -50.  These offsets are the truncations
`trunc (r * cos a)`, `trunc (r * sin a)` of exact real arithmetic
(`headExact`, `ballExact`) at every sweep angle but for six offsets, where
the exact product is an integer and the `float64` product lies just inside it:
the head has 24 for 25 at 30 and 150 degrees (sine) and -24 for -25 at 120
degrees (cosine), a ball has 14 for 15 and -14 for -15 at the same angles. -/
theorem trig_offsets_truncate :
    (∀ (E : FloatEnv) (m : MouseMover),
        emitted (drawHead E) m
            = (List.range 37).map (fun k : Nat =>
                (m.startX + E.toInt (cosProduct E HeadRadius (5 * k)),
                 m.startY + ShaftLength + E.toInt (sinProduct E HeadRadius (5 * k))))
          ∧ emitted (drawLeftBall E) m
            = (List.range 37).map (fun k : Nat =>
                (m.startX - BallOffset + E.toInt (cosProduct E BallRadius (10 * k)),
                 m.startY - 20 + E.toInt (sinProduct E BallRadius (10 * k))))
          ∧ emitted (drawRightBall E) m
            = (List.range 37).map (fun k : Nat =>
                (m.startX + BallOffset + E.toInt (cosProduct E BallRadius (10 * k)),
                 m.startY - 20 + E.toInt (sinProduct E BallRadius (10 * k)))))
      ∧ (∀ x : F64,
          binary64.toInt x = if 0 ≤ x.man then F64.floor x else -F64.floor (F64.neg x))
      ∧ (cosOffset binary64 HeadRadius 5 = 49 ∧ sinOffset binary64 HeadRadius 5 = 4
          ∧ cosOffset binary64 HeadRadius 175 = -49 ∧ sinOffset binary64 HeadRadius 175 = 4)
      ∧ (F64.nearest (cosProduct binary64 HeadRadius 5) = 50
          ∧ F64.floor (cosProduct binary64 HeadRadius 175) = -50)
      ∧ (∀ m : MouseMover,
          (emitted (drawHead binary64) m)[1]? = some (m.startX + 49, m.startY + 200 + 4)
            ∧ (emitted (drawHead binary64) m)[35]?
                = some (m.startX + -49, m.startY + 200 + 4))
      ∧ (∀ m : MouseMover,
          emitted (drawHead binary64) m
              = (headOffsets binary64).map (shift (m.startX, m.startY + ShaftLength))
            ∧ emitted (drawLeftBall binary64) m
              = (ballOffsets binary64).map (shift (m.startX - BallOffset, m.startY - 20))
            ∧ emitted (drawRightBall binary64) m
              = (ballOffsets binary64).map (shift (m.startX + BallOffset, m.startY - 20)))
      ∧ (∀ k : Nat, k < 37 →
          ExactOffset HeadRadius (5 * (k : Int)) (headExact.getD k (0, 0)))
      ∧ (∀ k : Nat, k < 37 →
          ExactOffset BallRadius (10 * (k : Int)) (ballExact.getD k (0, 0)))
      ∧ headOffsets binary64
          = ((headExact.set 6 (43, 24)).set 24 (-24, 43)).set 30 (-43, 24)
      ∧ ballOffsets binary64
          = ((ballExact.set 3 (25, 14)).set 12 (-14, 25)).set 15 (-25, 14) := by
  refine ⟨?_, ?_, ?_, ?_, ?_, ?_, headExact_spec, ballExact_spec, ?_, ?_⟩
  · intro E m
    refine ⟨?_, ?_, ?_⟩
    · rw [emitted_drawHead, headOffsets_map_shift]
      rfl
    · rw [emitted_drawLeftBall, ballOffsets_map_shift]
      rfl
    · rw [emitted_drawRightBall, ballOffsets_map_shift]
      rfl
  · intro x
    rw [binary64_toInt]
    exact F64.toInt_truncates x
  · exact ⟨by decide!, by decide!, by decide!, by decide!⟩
  · exact ⟨by decide!, by decide!⟩
  · intro m
    rw [emitted_drawHead, headOffsets_binary64]
    exact ⟨rfl, rfl⟩
  · intro m
    exact ⟨emitted_drawHead binary64 m, emitted_drawLeftBall binary64 m,
      emitted_drawRightBall binary64 m⟩
  · rw [headOffsets_binary64]
    decide
  · rw [ballOffsets_binary64]
    decide

/-- The head at 35 degrees (`k = 7`): the exact products are about 40.96 and
28.68, and both arithmetics give (40, 28). -/
theorem trig_offsets_truncate_witness :
    7 < 37
      ∧ ExactOffset HeadRadius (5 * ((7 : Nat) : Int)) (headExact.getD 7 (0, 0))
      ∧ ExactOffset BallRadius (10 * ((7 : Nat) : Int)) (ballExact.getD 7 (0, 0)) :=
  ⟨by decide, trig_offsets_truncate.2.2.2.2.2.2.1 7 (by decide),
    trig_offsets_truncate.2.2.2.2.2.2.2.1 7 (by decide)⟩

/-- C3 as stated fails at the head angle of 30 degrees: the exact product
`50 * sin 30` is 25, so the formula of the claim gives the offset (43, 25),
while the source computes the `float64` product 24.999999999999996 and emits
the offset (43, 24); for the anchor (960, 540) the point is (1003, 764), not
(1003, 765). -/
theorem head_offset_at_30_degrees_is_24_not_25 :
    (emitted (drawHead binary64) ⟨1920, 1080, 960, 540⟩)[6]? = some (1003, 764)
      ∧ (cosOffset binary64 HeadRadius 30 = 43 ∧ sinOffset binary64 HeadRadius 30 = 24)
      ∧ ExactOffset HeadRadius 30 (43, 25)
      ∧ ¬ ExactOffset HeadRadius 30 (43, 24)
      ∧ ⌊(50 : ℝ) * Real.sin (30 * Real.pi / 180)⌋ = 25 := by
  refine ⟨?_, ⟨by decide!, by decide!⟩, exactOffset_50_30, ?_, ?_⟩
  · rw [emitted_drawHead, headOffsets_binary64]
    rfl
  · intro h
    exact absurd (exactTrunc_unique h.2 exactOffset_50_30.2) (by decide)
  · have e : (30 : ℝ) * Real.pi / 180 = Real.pi / 6 := by ring
    rw [e, Real.sin_pi_div_six]
    norm_num

/-- C4.  In double precision the head starts at `(x0 + HeadRadius, headCenterY)`
(angle 0, `cos = 1`, `sin = 0`) and its 19th point (angle 90) is
`(x0, headCenterY + HeadRadius)`; for the anchor (960, 540) the head starts at
(1010, 740). -/
theorem head_first_and_middle (m : MouseMover) :
    (emitted (drawHead binary64) m)[0]? = some (m.startX + HeadRadius, headCenterY m)
      ∧ (emitted (drawHead binary64) m)[18]? = some (m.startX, headCenterY m + HeadRadius)
      ∧ headCenterY m = m.startY + ShaftLength
      ∧ (cosOffset binary64 HeadRadius 0 = HeadRadius ∧ sinOffset binary64 HeadRadius 0 = 0)
      ∧ (cosOffset binary64 HeadRadius 90 = 0 ∧ sinOffset binary64 HeadRadius 90 = HeadRadius)
      ∧ (∀ w h : Int, (emitted (drawHead binary64) ⟨w, h, 960, 540⟩)[0]? = some (1010, 740)) := by
  refine ⟨?_, ?_, rfl, ⟨by decide!, by decide!⟩, ⟨by decide!, by decide!⟩, ?_⟩
  · rw [emitted_drawHead, headOffsets_binary64]
    simp [shift, HeadRadius]
  · rw [emitted_drawHead, headOffsets_binary64]
    simp [shift, HeadRadius]
  · intro w h
    rw [emitted_drawHead, headOffsets_binary64]
    simp [shift, headCenterY, ShaftLength]

/-- C10.  In double precision every position of a traversal lies in the box
`x0 - 70 ≤ x ≤ x0 + 70`, `y0 - 50 ≤ y ≤ y0 + 250`; so on a screen at least 141
wide and 501 high, with the anchor of `NewMouseMover`, every position is on the
screen. -/
theorem traversal_stays_on_screen :
    (∀ (m : MouseMover), ∀ p ∈ emitted (ExecutePattern binary64) m,
        m.startX - 70 ≤ p.1 ∧ p.1 ≤ m.startX + 70 ∧ m.startY - 50 ≤ p.2 ∧ p.2 ≤ m.startY + 250)
      ∧ (∀ s : State, (ExecutePattern binary64 s).moves
          = s.moves ++ emitted (ExecutePattern binary64) s.mover)
      ∧ (∀ (width height : Int), 141 ≤ width → 501 ≤ height →
          ∀ p ∈ emitted (ExecutePattern binary64) (NewMouseMover width height),
            0 ≤ p.1 ∧ p.1 < width ∧ 0 ≤ p.2 ∧ p.2 < height) := by
  refine ⟨traversal_inBox, ?_, ?_⟩
  · intro s
    rw [ExecutePattern_eq, emitted_ExecutePattern]
  · intro width height hw hh p hp
    have hb := traversal_inBox (NewMouseMover width height) p hp
    have hx : (NewMouseMover width height).startX = width / 2 :=
      Int.tdiv_eq_ediv (by omega) (by decide)
    have hy : (NewMouseMover width height).startY = height / 2 :=
      Int.tdiv_eq_ediv (by omega) (by decide)
    unfold inBox at hb
    rw [hx, hy] at hb
    omega

/-- The smallest screen of the claim, 141 by 501, with the anchor (70, 250):
the right ball reaches (140, 230), the last column of the screen, and the head
reaches (70, 500), its last row. -/
theorem traversal_stays_on_screen_witness :
    (141 : Int) ≤ 141 ∧ (501 : Int) ≤ 501
      ∧ (((140, 230) : Int × Int) ∈ emitted (ExecutePattern binary64) (NewMouseMover 141 501)
        ∧ ((0 : Int) ≤ ((140, 230) : Int × Int).1 ∧ ((140, 230) : Int × Int).1 < 141
          ∧ (0 : Int) ≤ ((140, 230) : Int × Int).2 ∧ ((140, 230) : Int × Int).2 < 501))
      ∧ (((70, 500) : Int × Int) ∈ emitted (ExecutePattern binary64) (NewMouseMover 141 501)
        ∧ ((0 : Int) ≤ ((70, 500) : Int × Int).1 ∧ ((70, 500) : Int × Int).1 < 141
          ∧ (0 : Int) ≤ ((70, 500) : Int × Int).2 ∧ ((70, 500) : Int × Int).2 < 501)) :=
  have hball : ((140, 230) : Int × Int)
      ∈ emitted (ExecutePattern binary64) (NewMouseMover 141 501) := by
    rw [emitted_ExecutePattern, waypoints, emitted_drawRightBall, ballOffsets_binary64]
    exact List.mem_append_left _ (List.mem_cons_of_mem _ (List.mem_append_right _
      (List.mem_map.mpr ⟨(30, 0), List.mem_cons_self _ _, rfl⟩)))
  have hhead : ((70, 500) : Int × Int)
      ∈ emitted (ExecutePattern binary64) (NewMouseMover 141 501) := by
    rw [emitted_ExecutePattern, waypoints, emitted_drawHead, headOffsets_binary64]
    exact List.mem_append_left _ (List.mem_cons_of_mem _ (List.mem_append_left _
      (List.mem_append_left _ (List.mem_append_right _
        (List.mem_map.mpr ⟨(0, 50), by decide, rfl⟩)))))
  ⟨by decide, by decide,
    ⟨hball, traversal_stays_on_screen.2.2 141 501 (by decide) (by decide) (140, 230) hball⟩,
    ⟨hhead, traversal_stays_on_screen.2.2 141 501 (by decide) (by decide) (70, 500) hhead⟩⟩

end MouseMoverSpec
